import Mathlib

/-!
Verification development for the pypls cross-validation core
(`cross_validation.py`, class `CrossValidation`).

The module is embedded shallowly:

* numpy float arrays become rational vectors (`Vec`) and matrices (`Mat`,
  a list of rows);
* the two external collaborators (the `Scaler` from `pretreatment` and the
  `PLS`/`OPLS` estimators) are abstracted by a structure `Ops` of opaque-to-us
  functions, exactly the contract surface the core consumes
  (`fit`/`scale`, `fit`/`predict`/`correct` plus the exposed attributes);
* the mutable accumulator arrays created by `fit` (`ypred`, `pressy`,
  `tortho`, `tpred`) are modelled as write logs: each cell holds the list of
  `(fold, value)` assignments made to it, in order.  Reading a cell yields the
  last written value, or the arbitrary `np.empty` content for a never-written
  cell (the `junk` parameter);
* raising `ValueError` in a property accessor becomes returning
  `Except.error`.
-/

namespace PyPLS

/-- A float vector, modelled over the rationals. -/
abbrev Vec := List ℚ

/-- A float matrix, as a list of rows. -/
abbrev Mat := List (List ℚ)

/-- Write log of the accumulator arrays: cell `(i, c)` holds the list of
`(fold, value)` assignments made to it during `fit`, in program order. -/
abbrev Log := ℕ → ℕ → List (ℕ × ℚ)

/-- Sum of squares of a vector, `(v ** 2).sum()`. -/
def sumSqV (v : Vec) : ℚ := (v.map (fun a => a * a)).sum

/-- Sum of squares of all entries of a matrix, `(m ** 2).sum()`. -/
def sumSqM (m : Mat) : ℚ := (m.map sumSqV).sum

/-- Entry `m[i][j]` of a matrix. -/
def entry (m : Mat) (i j : ℕ) : ℚ := (m.getD i []).getD j 0

/-- Column `m[:, j]` of a matrix. -/
def colOf (m : Mat) (j : ℕ) : Vec := m.map (fun r => r.getD j 0)

/-- Row selection `m[idx]` by a list of row indices. -/
def rowsAt (m : Mat) (idx : List ℕ) : Mat := idx.map (fun i => m.getD i [])

/-- Element selection `v[idx]` by a list of indices. -/
def valsAt (v : Vec) (idx : List ℕ) : Vec := idx.map (fun i => v.getD i 0)

/-- First `k` columns `m[:, :k]`. -/
def takeCols (m : Mat) (k : ℕ) : Mat := m.map (fun r => r.take k)

/-- Matrix transpose `m.T` (the column count is read off the first row). -/
def transposeM (m : Mat) : Mat := (List.range ((m.headD []).length)).map (fun j => colOf m j)

/-- Dot product of two vectors. -/
def dotV (u v : Vec) : ℚ := (List.zipWith (fun a b => a * b) u v).sum

/-- Matrix product `np.dot(A, B)`. -/
def matMul (A B : Mat) : Mat :=
  A.map (fun r => (List.range ((B.headD []).length)).map (fun j => dotV r (colOf B j)))

/-- Matrix–vector product `np.dot(A, v)`. -/
def matVecMul (A : Mat) (v : Vec) : Vec := A.map (fun r => dotV r v)

/-- Vector–matrix product `np.dot(v, A)`. -/
def vecMatMul (v : Vec) (A : Mat) : Vec :=
  (List.range ((A.headD []).length)).map (fun j => dotV v (colOf A j))

/-- Division of a vector by a scalar. -/
def divVS (v : Vec) (c : ℚ) : Vec := v.map (fun a => a / c)

/-- Elementwise square of a vector. -/
def sqVec (v : Vec) : Vec := v.map (fun a => a * a)

/-- Elementwise difference of two vectors. -/
def subVec (u v : Vec) : Vec := List.zipWith (fun a b => a - b) u v

/-- Elementwise sum of two matrices. -/
def addM (A B : Mat) : Mat := List.zipWith (fun r s => List.zipWith (fun a b => a + b) r s) A B

/-- Elementwise difference of two matrices. -/
def subM (A B : Mat) : Mat := List.zipWith (fun r s => List.zipWith (fun a b => a - b) r s) A B

/-- Minimum of a list of naturals (`0` on the empty list). -/
def listMinN : List ℕ → ℕ
  | [] => 0
  | [a] => a
  | a :: b :: r => min a (listMinN (b :: r))

/-- Index of the first occurrence of the minimum, `np.argmin` (`0` on the
empty list; numpy raises there, callers guard by nonemptiness). -/
def argminN : List ℕ → ℕ
  | [] => 0
  | [_] => 0
  | a :: b :: r => if a ≤ listMinN (b :: r) then 0 else argminN (b :: r) + 1

/-- Test indices of fold `i` produced by `CrossValidation._split`: with
`blk = n // kfold`, the positions where `train_index` was set to `False`,
that is the block `[blk * i, min(blk * (i + 1), n))`. -/
def _split_test (n kfold i : ℕ) : List ℕ :=
  (List.range n).filter
    (fun j => decide (n / kfold * i ≤ j) && decide (j < min (n / kfold * (i + 1)) n))

/-- Train indices of fold `i` produced by `CrossValidation._split`: the
complement of the test block inside `range n`. -/
def _split_train (n kfold i : ℕ) : List ℕ :=
  (List.range n).filter
    (fun j => !(decide (n / kfold * i ≤ j) && decide (j < min (n / kfold * (i + 1)) n)))

/-- The full sequence of `(train_index, test_index)` pairs yielded by
`CrossValidation._split(n)`: one pair per `i in range(self.kfold)`. -/
def _split (n kfold : ℕ) : List (List ℕ × List ℕ) :=
  (List.range kfold).map (fun i => (_split_train n kfold i, _split_test n kfold i))

/-- Stored state of the `pretreatment.Scaler` object: the parameters learned
by its most recent `fit` call, identified with the reference data that call
saw (the scaling formula itself is external). -/
inductive ScalerParams where
  | unset : ScalerParams
  | matRef : Mat → ScalerParams
  | vecRef : Vec → ScalerParams

/-- Fitted state of the estimator object: the scaled training data and the
component count passed to its most recent `fit` call. -/
abbrev EstState := Mat × Vec × ℕ

/-- External collaborators of the core, abstracted as pure functions of the
state they were fitted on.  `learnM r m` (resp. `learnV`) applies to `m` the
scaling parameters learned from `r`; the estimator functions take the fitted
state recorded at the latest `estimator.fit` call.  `rt` is the external
numeric square-root routine (`np.sqrt` / `la.norm`). -/
structure Ops where
  learnM : Mat → Mat → Mat
  learnV : Vec → Vec → Vec
  correct : EstState → Mat → ℕ → Mat × Mat
  opredict : EstState → Mat → ℕ → Vec × Vec
  ppredict : EstState → Mat → ℕ → Vec
  orthogonal_loadings : EstState → Mat
  predictive_scores : EstState → Mat
  predictive_score : EstState → ℕ → Vec
  orthogonal_scores : EstState → Mat
  predictive_loadings : EstState → Mat
  weights_y : EstState → Vec
  scores_x : EstState → Mat
  loadings_x : EstState → Mat
  rt : ℚ → ℚ

/-- `Scaler.fit(m)`: learn parameters from `m`, return `m` scaled and the
stored parameters. -/
def Scaler.fitM (O : Ops) (m : Mat) : Mat × ScalerParams := (O.learnM m m, ScalerParams.matRef m)

/-- `Scaler.fit(v)` on a 1-D array. -/
def Scaler.fitV (O : Ops) (v : Vec) : Vec × ScalerParams := (O.learnV v v, ScalerParams.vecRef v)

/-- `Scaler.scale(m)`: apply previously stored parameters to `m` without
refitting (degenerate if the stored parameters are not matrix parameters;
that path is never taken by the embedded code). -/
def Scaler.scaleM (O : Ops) : ScalerParams → Mat → Mat
  | ScalerParams.matRef r, m => O.learnM r m
  | _, m => m

/-- `Scaler.scale(v)` on a 1-D array. -/
def Scaler.scaleV (O : Ops) : ScalerParams → Vec → Vec
  | ScalerParams.vecRef r, v => O.learnV r v
  | _, v => v

/-- Full state of a `CrossValidation` object: constructor configuration, the
in-place mutated scaler/estimator states, the accumulator write logs of one
`fit` call, and the reduced metrics. -/
structure CVState where
  kfold : ℕ
  estimator_id : String
  scalerP : ScalerParams
  est : EstState
  n : ℕ
  p : ℕ
  npc0 : ℕ
  ypredLog : Log
  pressyLog : Log
  torthoLog : Log
  tpredLog : Log
  junk : ℕ → ℕ → ℕ → ℚ
  ssxCorr : ℕ → List ℚ
  ssxXyo : ℕ → List ℚ
  ssxTotal : ℕ → List ℚ
  pcv : ℕ → List Vec
  ssyList : List ℚ
  ssy : ℚ
  y : Vec
  opt : ℕ
  nmc : List ℕ
  q2 : List ℚ
  r2xcorr : List ℚ
  r2xyo : List ℚ
  r2x : ℚ
  r2y : ℚ
  cov : Vec
  corr : Vec

/-- Value of a logged cell: the last value written, or the arbitrary
`np.empty` content for a never-written cell. -/
def readLog (l : List (ℕ × ℚ)) (d : ℚ) : ℚ := ((l.getLast?).map Prod.snd).getD d

/-- Current value of `self._ypred[i, c]`. -/
def CVState.ypredV (st : CVState) (i c : ℕ) : ℚ := readLog (st.ypredLog i c) (st.junk 0 i c)

/-- Current value of `self._pressy[i, c]`. -/
def CVState.pressyV (st : CVState) (i c : ℕ) : ℚ := readLog (st.pressyLog i c) (st.junk 1 i c)

/-- Current value of `self._Tortho[i, c]`. -/
def CVState.torthoV (st : CVState) (i c : ℕ) : ℚ := readLog (st.torthoLog i c) (st.junk 2 i c)

/-- Current value of `self._Tpred[i, c]`. -/
def CVState.tpredV (st : CVState) (i c : ℕ) : ℚ := readLog (st.tpredLog i c) (st.junk 3 i c)

/-- Fancy-index assignment `arr[idx, c] = vals` performed in fold `f`: cell
`(i, c)` receives, appended to its log, the value of `vals` at the position
of `i` in `idx` (the index lists produced by `_split` have no duplicates). -/
def asgn (f c : ℕ) (idx : List ℕ) (vals : Vec) (log : Log) : Log :=
  fun i c' =>
    if c' = c ∧ i ∈ idx then log i c' ++ [(f, vals.getD (idx.indexOf i) 0)] else log i c'

/-- Append `v` to the list stored at key `k` of a `defaultdict(list)`. -/
def updAppend (g : ℕ → List ℚ) (k : ℕ) (v : ℚ) : ℕ → List ℚ :=
  fun k' => if k' = k then g k' ++ [v] else g k'

/-- Append a vector to the list stored at key `k` of `pcv`. -/
def updAppendV (g : ℕ → List Vec) (k : ℕ) (v : Vec) : ℕ → List Vec :=
  fun k' => if k' = k then g k' ++ [v] else g k'

/-- One iteration of the component loop `for k in range(1, npc + 1)` of
`CrossValidation.fit`, for fold `f` with test indices `test`, scaled data
`xtrS`/`xteS`/`yteS` and test sum of squares `sst` (`ssx_tot`). -/
def innerStep (O : Ops) (eid : String) (f : ℕ) (test : List ℕ)
    (xtrS xteS : Mat) (yteS : Vec) (sst : ℚ) (st : CVState) (k : ℕ) : CVState :=
  if eid = "opls" then
    let xte_corr := (O.correct st.est xteS k).1
    let tcorr := (O.correct st.est xteS k).2
    let yp_k := (O.opredict st.est xte_corr k).1
    let tp_k := (O.opredict st.est xte_corr k).2
    let tp := colOf (O.predictive_scores st.est) (k - 1)
    { st with
      torthoLog :=
        if xteS.length = 1 then asgn f 0 test [entry tcorr 0 0] st.torthoLog
        else asgn f (k - 1) test (colOf tcorr 0) st.torthoLog,
      tpredLog := asgn f (k - 1) test tp_k st.tpredLog,
      ssxCorr := updAppend st.ssxCorr k (sumSqM xte_corr),
      ssxXyo := updAppend st.ssxXyo k
        (sumSqM (matMul tcorr (transposeM (takeCols (O.orthogonal_loadings st.est) k)))),
      ssxTotal := updAppend st.ssxTotal k sst,
      pcv := updAppendV st.pcv k (divVS (vecMatMul tp xtrS) (sumSqV tp)),
      ypredLog := asgn f (k - 1) test yp_k st.ypredLog,
      pressyLog := asgn f (k - 1) test (sqVec (subVec yp_k yteS)) st.pressyLog }
  else
    let yp_k := O.ppredict st.est xteS k
    { st with
      ypredLog := asgn f (k - 1) test yp_k st.ypredLog,
      pressyLog := asgn f (k - 1) test (sqVec (subVec yp_k yteS)) st.pressyLog }

/-- The whole component loop of one fold, components `1` to `npc`. -/
def innerLoop (O : Ops) (eid : String) (f : ℕ) (test : List ℕ)
    (xtrS xteS : Mat) (yteS : Vec) (sst : ℚ) (npc : ℕ) (st : CVState) : CVState :=
  (List.range npc).foldl (fun a kk => innerStep O eid f test xtrS xteS yteS sst a (kk + 1)) st

/-- One iteration of the fold loop of `CrossValidation.fit`: slice, scale,
fit the estimator, shrink `npc0`, run the component loop, append `ssy_tot`. -/
def foldStep (O : Ops) (eid : String) (x : Mat) (y : Vec) (st : CVState) (f : ℕ) : CVState :=
  let train := _split_train st.n st.kfold f
  let test := _split_test st.n st.kfold f
  let xtr := rowsAt x train
  let xte := rowsAt x test
  let ytr := valsAt y train
  let yte := valsAt y test
  let fx := Scaler.fitM O xtr
  let xtrS := fx.1
  let xteS := Scaler.scaleM O fx.2 xte
  let fy := Scaler.fitV O ytr
  let ytrS := fy.1
  let yteS := Scaler.scaleV O fy.2 yte
  let npc := min train.length st.p
  let st1 := { st with est := (xtrS, ytrS, npc), scalerP := fy.2, npc0 := min st.npc0 npc }
  let st2 := innerLoop O eid f test xtrS xteS yteS (sumSqM xteS) npc st1
  { st2 with ssyList := st2.ssyList ++ [sumSqV yteS] }

/-- Predicted class of sample `i` at component column `c`:
`(self._ypred > 0).astype(float)`. -/
def predClassV (st : CVState) (i c : ℕ) : ℚ := if 0 < st.ypredV i c then 1 else 0

/-- Per-column misclassification counts
`((_pred_class - self.y[:, np.newaxis]) != 0).sum(axis=0)`. -/
def nmcOf (st : CVState) : List ℕ :=
  (List.range st.npc0).map (fun c =>
    ((List.range st.n).filter (fun i => decide (predClassV st i c - st.y.getD i 0 ≠ 0))).length)

/-- `CrossValidation._summary_cv`: misclassification counts, the optimal
component index `argmin(nmc)`, the Q2 curve and (for OPLS) the R2Xcorr /
R2XYO curves. -/
def _summary_cv (st : CVState) : CVState :=
  let nmc := nmcOf st
  let j := argminN nmc
  let st1 := { st with
    opt := j,
    nmc := nmc,
    q2 := (List.range st.npc0).map (fun c =>
      1 - ((List.range st.n).map (fun i => st.pressyV i c)).sum / st.ssy) }
  if st1.estimator_id = "opls" then
    { st1 with
      r2xcorr := (List.range st1.npc0).map (fun c =>
        (st1.ssxCorr (c + 1)).sum / (st1.ssxTotal (c + 1)).sum),
      r2xyo := (List.range st1.npc0).map (fun c =>
        (st1.ssxXyo (c + 1)).sum / (st1.ssxTotal (c + 1)).sum) }
  else st1

/-- `CrossValidation._summary_fit`: covariance/correlation loading profiles
(OPLS only) and the reconstruction-based R2X / R2Y of the final model. -/
def _summary_fit (O : Ops) (x : Mat) (y : Vec) (st : CVState) : CVState :=
  let npc := st.opt + 1
  if st.estimator_id = "opls" then
    let tp := O.predictive_score st.est npc
    let ss_tp := dotV tp tp
    let w := vecMatMul tp x
    let xrec := addM
      (matMul (O.orthogonal_scores st.est) (transposeM (O.orthogonal_loadings st.est)))
      (matMul (tp.map (fun a => [a])) [colOf (O.predictive_loadings st.est) (npc - 1)])
    let yrec := tp.map (fun a => a * (O.weights_y st.est).getD (npc - 1) 0)
    { st with
      cov := divVS w ss_tp,
      corr := (List.range w.length).map (fun j0 =>
        w.getD j0 0 / (O.rt ss_tp * O.rt (sumSqV (colOf x j0)))),
      r2x := 1 - sumSqM (subM x xrec) / sumSqM x,
      r2y := 1 - sumSqV (subVec y yrec) / sumSqV y }
  else
    let xrec := matMul (takeCols (O.scores_x st.est) npc)
      (transposeM (takeCols (O.loadings_x st.est) npc))
    let yrec := matVecMul (takeCols (O.scores_x st.est) npc) ((O.weights_y st.est).take npc)
    { st with
      r2x := 1 - sumSqM (subM x xrec) / sumSqM x,
      r2y := 1 - sumSqV (subVec y yrec) / sumSqV y }

/-- `CrossValidation._create_optimal_model`: refit scaler and estimator on
the entire dataset at `opt_component + 1` components, then summarize. -/
def _create_optimal_model (O : Ops) (x : Mat) (y : Vec) (st : CVState) : CVState :=
  let fy := Scaler.fitV O y
  let y_scale := fy.1
  let fx := Scaler.fitM O x
  let x_scale := fx.1
  let npc := st.opt + 1
  let st1 := { st with scalerP := fx.2, est := (x_scale, y_scale, npc) }
  _summary_fit O x_scale y_scale st1

/-- State of the `CrossValidation` object at the start of `fit(x, y)`:
`n, p = x.shape`, `npc0 = min(n, p)`, all accumulator logs empty. -/
def fitInit (eid : String) (kfold : ℕ) (x : Mat) (y : Vec)
    (junk : ℕ → ℕ → ℕ → ℚ) : CVState where
  kfold := kfold
  estimator_id := eid
  scalerP := ScalerParams.unset
  est := ([], [], 0)
  n := x.length
  p := (x.headD []).length
  npc0 := min x.length ((x.headD []).length)
  ypredLog := fun _ _ => []
  pressyLog := fun _ _ => []
  torthoLog := fun _ _ => []
  tpredLog := fun _ _ => []
  junk := junk
  ssxCorr := fun _ => []
  ssxXyo := fun _ => []
  ssxTotal := fun _ => []
  pcv := fun _ => []
  ssyList := []
  ssy := 0
  y := y
  opt := 0
  nmc := []
  q2 := []
  r2xcorr := []
  r2xyo := []
  r2x := 0
  r2y := 0
  cov := []
  corr := []

/-- `CrossValidation.fit(x, y)`: the fold × component double loop followed by
the cross validation summary and the final refit.  `junk a i c` is the
arbitrary content cell `(i, c)` of `np.empty` array `a` starts with. -/
def CrossValidation.fit (O : Ops) (eid : String) (kfold : ℕ) (x : Mat) (y : Vec)
    (junk : ℕ → ℕ → ℕ → ℚ) : CVState :=
  let st1 := (List.range kfold).foldl (foldStep O eid x y) (fitInit eid kfold x y junk)
  let st2 := { st1 with ssy := st1.ssyList.sum }
  let st3 := _summary_cv st2
  _create_optimal_model O x y st3

/-- `CrossValidation.predict(x)`: scale with the stored scaler parameters,
correct if OPLS, predict at `opt_component + 1` components. -/
def CVState.predict (O : Ops) (st : CVState) (x : Mat) : Vec :=
  let npc := st.opt + 1
  let xs := Scaler.scaleM O st.scalerP x
  if st.estimator_id = "opls" then
    (O.opredict st.est ((O.correct st.est xs npc).1) npc).1
  else
    O.ppredict st.est xs npc

/-- Cross validated orthogonal score property (`orthogonal_score`):
column `opt_component` of `self._Tortho`, OPLS only. -/
def CVState.orthogonal_score (st : CVState) : Except String Vec :=
  if st.estimator_id ≠ "opls" then Except.error "This is only applicable for OPLS/OPLS-DA."
  else Except.ok ((List.range st.n).map (fun i => st.torthoV i st.opt))

/-- Cross validated predictive score property (`predictive_score`):
column `opt_component` of `self._Tpred`, OPLS only. -/
def CVState.predictive_score (st : CVState) : Except String Vec :=
  if st.estimator_id ≠ "opls" then Except.error "This is only applicable for OPLS/OPLS-DA."
  else Except.ok ((List.range st.n).map (fun i => st.tpredV i st.opt))

/-- The `scores` property: the predictive score for OPLS, otherwise the
estimator's `scores_x`. -/
def CVState.scores (O : Ops) (st : CVState) : Except String (Vec ⊕ Mat) :=
  if st.estimator_id = "opls" then (CVState.predictive_score st).map Sum.inl
  else Except.ok (Sum.inr (O.scores_x st.est))

/-- The `q2` property: entry `opt_component` of the internal Q2 curve. -/
def CVState.q2prop (st : CVState) : ℚ := st.q2.getD st.opt 0

/-- The `optimal_component_num` property. -/
def CVState.optimal_component_num (st : CVState) : ℕ := st.opt + 1

/-- The `R2Xcorr` property, OPLS only. -/
def CVState.R2Xcorr (st : CVState) : Except String ℚ :=
  if st.estimator_id ≠ "opls" then Except.error "This is only applicable for OPLS/OPLS-DA."
  else Except.ok (st.r2xcorr.getD st.opt 0)

/-- The `R2XYO` property, OPLS only. -/
def CVState.R2XYO (st : CVState) : Except String ℚ :=
  if st.estimator_id ≠ "opls" then Except.error "This is only applicable for OPLS/OPLS-DA."
  else Except.ok (st.r2xyo.getD st.opt 0)

/-- The `R2X` property. -/
def CVState.R2X (st : CVState) : ℚ := st.r2x

/-- The `R2y` property. -/
def CVState.R2y (st : CVState) : ℚ := st.r2y

/-- The `correlation` property, OPLS only. -/
def CVState.correlation (st : CVState) : Except String Vec :=
  if st.estimator_id ≠ "opls" then Except.error "This is only applicable for OPLS/OPLS-DA."
  else Except.ok st.corr

/-- The `covariance` property, OPLS only. -/
def CVState.covariance (st : CVState) : Except String Vec :=
  if st.estimator_id ≠ "opls" then Except.error "This is only applicable for OPLS/OPLS-DA."
  else Except.ok st.cov

/-- The `loadings_cv` property (`np.array(self._pcv[self._opt_component+1])`),
OPLS only. -/
def CVState.loadings_cv (st : CVState) : Except String (List Vec) :=
  if st.estimator_id ≠ "opls" then Except.error "This is only applicable for OPLS/OPLS-DA."
  else Except.ok (st.pcv (st.opt + 1))

/-- The `min_nmc` property. -/
def CVState.min_nmc (st : CVState) : ℕ := st.nmc.getD st.opt 0

/-- The `mis_classifications` property. -/
def CVState.mis_classifications (st : CVState) : List ℕ := st.nmc

/-- Attribute state of a freshly constructed `CrossValidation` object.  The
`estimator` attribute is only ever assigned inside the two recognized
branches of `__init__`, so it is an `Option`; `none` models the attribute
never having been set. -/
structure CVConfig where
  kfold : ℕ
  estimator : Option String
  estimator_id : String
  scaler : String

/-- `CrossValidation.__init__(estimator, kfold, scaler)`.  The body contains
no `raise`; the result is always `Except.ok`.  The `estimator` attribute is
assigned `PLS()` for `"pls"`, `OPLS()` for `"opls"`, and is left unassigned
otherwise. -/
def CrossValidation.mk_init (estimator : String) (kfold : ℕ) (scaler : String) :
    Except String CVConfig :=
  Except.ok {
    kfold := kfold,
    estimator :=
      if estimator = "pls" then some "PLS"
      else if estimator = "opls" then some "OPLS"
      else none,
    estimator_id := estimator,
    scaler := scaler }

/-- First access to `self.estimator` performed by a later call such as
`fit`: resolving a never-assigned attribute raises `AttributeError`. -/
def CVConfig.estimatorAccess (c : CVConfig) : Except String Unit :=
  match c.estimator with
  | some _ => Except.ok ()
  | none => Except.error "AttributeError: 'CrossValidation' object has no attribute 'estimator'"

/-- Component count fitted in fold `f`: `min(xtr.shape)` for that fold's
training slice. -/
def npcF (n p kfold f : ℕ) : ℕ := min (_split_train n kfold f).length p

/-- Scaled test response of fold `f`: `yte_scale` as computed inside the
fold loop of `fit` (scaler fitted on the training slice of `y`, applied to
the test slice). -/
def yteScaledF (O : Ops) (y : Vec) (n kfold f : ℕ) : Vec :=
  Scaler.scaleV O (Scaler.fitV O (valsAt y (_split_train n kfold f))).2
    (valsAt y (_split_test n kfold f))

/-- A concrete instantiation of the external collaborators, used to exercise
the embedding on small inputs: identity scaling and constant predictions. -/
def constOps : Ops where
  learnM := fun _ m => m
  learnV := fun _ v => v
  correct := fun _ m _ => (m, m)
  opredict := fun _ m _ => (m.map (fun _ => 10), m.map (fun _ => 0))
  ppredict := fun _ m _ => m.map (fun _ => 10)
  orthogonal_loadings := fun _ => []
  predictive_scores := fun _ => []
  predictive_score := fun _ _ => []
  orthogonal_scores := fun _ => []
  predictive_loadings := fun _ => []
  weights_y := fun _ => []
  scores_x := fun _ => []
  loadings_x := fun _ => []
  rt := fun q => q

/-- Small concrete variable matrix: two samples, one variable. -/
def cx : Mat := [[1], [1]]

/-- Small concrete response vector. -/
def cy : Vec := [0, 1]

/-- Small concrete variable matrix: two samples, two variables. -/
def cx2 : Mat := [[1, 0], [0, 1]]

/-- Concrete `np.empty` contents: all cells start at zero. -/
def cjunk : ℕ → ℕ → ℕ → ℚ := fun _ _ _ => 0

/-- A concrete state configured for plain PLS, used to exercise the
property accessors. -/
def stPls : CVState where
  kfold := 10
  estimator_id := "pls"
  scalerP := ScalerParams.unset
  est := ([], [], 0)
  n := 0
  p := 0
  npc0 := 0
  ypredLog := fun _ _ => []
  pressyLog := fun _ _ => []
  torthoLog := fun _ _ => []
  tpredLog := fun _ _ => []
  junk := fun _ _ _ => 0
  ssxCorr := fun _ => []
  ssxXyo := fun _ => []
  ssxTotal := fun _ => []
  pcv := fun _ => []
  ssyList := []
  ssy := 0
  y := []
  opt := 0
  nmc := []
  q2 := []
  r2xcorr := []
  r2xyo := []
  r2x := 0
  r2y := 0
  cov := []
  corr := []

/-- The same concrete state configured for OPLS. -/
def stOpls : CVState := { stPls with estimator_id := "opls" }

theorem mem_split_test {n k i j : ℕ} :
    j ∈ _split_test n k i ↔ n / k * i ≤ j ∧ j < min (n / k * (i + 1)) n := by
  simp only [_split_test, List.mem_filter, List.mem_range, Bool.and_eq_true, decide_eq_true_eq]
  constructor
  · exact fun h => h.2
  · intro h
    exact ⟨lt_of_lt_of_le h.2 (Nat.min_le_right _ _), h⟩

theorem mem_split_train {n k i j : ℕ} :
    j ∈ _split_train n k i ↔ j < n ∧ j ∉ _split_test n k i := by
  simp only [_split_train, _split_test, List.mem_filter, List.mem_range, Bool.not_eq_true']
  cases hb : (decide (n / k * i ≤ j) && decide (j < min (n / k * (i + 1)) n)) <;> simp [hb]

theorem block_index_eq {blk i j : ℕ} (hb : 0 < blk)
    (hle : blk * i ≤ j) (hlt : j < blk * (i + 1)) : i = j / blk := by
  have h1 : i ≤ j / blk := (Nat.le_div_iff_mul_le hb).2 (by rw [Nat.mul_comm]; exact hle)
  have h2 : j / blk < i + 1 := (Nat.div_lt_iff_lt_mul hb).2 (by rw [Nat.mul_comm]; exact hlt)
  omega

theorem split_test_disjoint {n k i1 i2 j : ℕ} (hb : 0 < n / k)
    (h1 : j ∈ _split_test n k i1) (h2 : j ∈ _split_test n k i2) : i1 = i2 := by
  rw [mem_split_test] at h1 h2
  have e1 := block_index_eq hb h1.1 (lt_of_lt_of_le h1.2 (Nat.min_le_left _ _))
  have e2 := block_index_eq hb h2.1 (lt_of_lt_of_le h2.2 (Nat.min_le_left _ _))
  omega

theorem split_test_cover {n k j : ℕ} (hk : 1 ≤ k) (hd : k ∣ n) (hj : j < n) :
    j / (n / k) < k ∧ j ∈ _split_test n k (j / (n / k)) := by
  have hkn : k ≤ n := Nat.le_of_dvd (by omega) hd
  have hb : 0 < n / k := (Nat.one_le_div_iff (by omega)).2 hkn
  have hnk : n / k * k = n := Nat.div_mul_cancel hd
  have hlo : n / k * (j / (n / k)) ≤ j := by
    rw [Nat.mul_comm]
    exact Nat.div_mul_le_self j (n / k)
  have hup : j < n / k * (j / (n / k) + 1) := by
    rw [Nat.mul_comm]
    exact (Nat.div_lt_iff_lt_mul hb).1 (Nat.lt_succ_self (j / (n / k)))
  have hik : j / (n / k) < k := by
    refine (Nat.div_lt_iff_lt_mul hb).2 ?_
    rw [Nat.mul_comm]
    omega
  refine ⟨hik, ?_⟩
  rw [mem_split_test]
  exact ⟨hlo, lt_min hup hj⟩

/-- Claim C3: for `n ≥ 1`, `k ≥ 1` and `blk = n // k`, the fold splitter
yields exactly `k` (train, test) pairs; fold `i`'s test indices are exactly
the positions `[blk·i, min(blk·(i+1), n))` and its train indices are the
complement of that set inside `range n`; when `k` divides `n` the `k`
test-index sets are pairwise disjoint and their union is `0, ..., n−1`. -/
theorem claim_C3 (n k : ℕ) (hn : 1 ≤ n) (hk : 1 ≤ k) :
    (_split n k).length = k
    ∧ (∀ i, i < k → (_split n k).getD i ([], []) = (_split_train n k i, _split_test n k i))
    ∧ (∀ i j, j ∈ _split_test n k i ↔ n / k * i ≤ j ∧ j < min (n / k * (i + 1)) n)
    ∧ (∀ i j, j ∈ _split_train n k i ↔ j < n ∧ j ∉ _split_test n k i)
    ∧ (k ∣ n →
        (∀ i1 i2 j, i1 ≠ i2 → j ∈ _split_test n k i1 → j ∉ _split_test n k i2)
        ∧ (∀ j, j < n ↔ ∃ i, i < k ∧ j ∈ _split_test n k i)) := by
  refine ⟨by simp [_split], ?_, fun i j => mem_split_test, fun i j => mem_split_train, ?_⟩
  · intro i hi
    simp [_split, List.getD_eq_getElem?_getD, List.getElem?_map, List.getElem?_range, hi]
  · intro hd
    have hkn : k ≤ n := Nat.le_of_dvd (by omega) hd
    have hb : 0 < n / k := (Nat.one_le_div_iff (by omega)).2 hkn
    constructor
    · intro i1 i2 j hne h1 h2
      exact hne (split_test_disjoint hb h1 h2)
    · intro j
      constructor
      · intro hj
        obtain ⟨hik, hmem⟩ := split_test_cover hk hd hj
        exact ⟨j / (n / k), hik, hmem⟩
      · rintro ⟨i, _, hmem⟩
        rw [mem_split_test] at hmem
        exact lt_of_lt_of_le hmem.2 (Nat.min_le_right _ _)

theorem claim_C3_witness :
    (_split 4 2).length = 2
    ∧ (3 ∈ _split_test 4 2 1 ↔ 4 / 2 * 1 ≤ 3 ∧ 3 < min (4 / 2 * (1 + 1)) 4) :=
  ⟨(claim_C3 4 2 (by decide) (by decide)).1,
   (claim_C3 4 2 (by decide) (by decide)).2.2.1 1 3⟩

/-- Claim C4 counterexample: with `n = 3`, `k = 2` (so `blk = 1`), the
claimed last-fold test block `[blk·(k−1), n) = [1, 3)` would contain index
`2`, but the actual last fold's test set is `[1]`, and index `2` belongs to
no fold's test set at all: the union of test sets does not cover all `n`
indices when `k` does not divide `n`. -/
theorem claim_C4_counterexample :
    ¬ (∀ j, j ∈ _split_test 3 2 (2 - 1) ↔ 3 / 2 * (2 - 1) ≤ j ∧ j < 3) :=
  fun h => absurd ((h 2).2 (by decide)) (by decide)

/-- Claim C4 (amended): for every `n` and `k` with `1 ≤ k ≤ n` and
`blk = n // k`, the final fold's test block is `[blk·(k−1), blk·k)` — it
does *not* absorb the remainder samples — and the union of the test sets
over all `k` folds is exactly `[0, blk·k)`, so the remainder indices
`[blk·k, n)` are held out in no fold and full coverage holds only when `k`
divides `n`. -/
theorem claim_C4 (n k : ℕ) (hk : 1 ≤ k) (hkn : k ≤ n) :
    (∀ j, j ∈ _split_test n k (k - 1) ↔ n / k * (k - 1) ≤ j ∧ j < n / k * k)
    ∧ (∀ j, (∃ i, i < k ∧ j ∈ _split_test n k i) ↔ j < n / k * k) := by
  have hb : 0 < n / k := (Nat.one_le_div_iff (by omega)).2 hkn
  have hmn : n / k * k ≤ n := Nat.div_mul_le_self n k
  constructor
  · intro j
    rw [mem_split_test]
    have hsk : k - 1 + 1 = k := by omega
    rw [hsk]
    have : min (n / k * k) n = n / k * k := Nat.min_eq_left hmn
    rw [this]
  · intro j
    constructor
    · rintro ⟨i, hik, hmem⟩
      rw [mem_split_test] at hmem
      have h1 : j < n / k * (i + 1) := lt_of_lt_of_le hmem.2 (Nat.min_le_left _ _)
      have h2 : n / k * (i + 1) ≤ n / k * k := Nat.mul_le_mul (Nat.le_refl _) (by omega)
      omega
    · intro hj
      have hjn : j < n := by omega
      refine ⟨j / (n / k), ?_, ?_⟩
      · refine (Nat.div_lt_iff_lt_mul hb).2 ?_
        rw [Nat.mul_comm]
        omega
      · rw [mem_split_test]
        have hlo : n / k * (j / (n / k)) ≤ j := by
          rw [Nat.mul_comm]
          exact Nat.div_mul_le_self j (n / k)
        have hup : j < n / k * (j / (n / k) + 1) := by
          rw [Nat.mul_comm]
          exact (Nat.div_lt_iff_lt_mul hb).1 (Nat.lt_succ_self (j / (n / k)))
        exact ⟨hlo, lt_min hup hjn⟩

theorem claim_C4_witness :
    (∃ i, i < 3 ∧ 7 ∈ _split_test 10 3 i) ↔ 7 < 10 / 3 * 3 :=
  (claim_C4 10 3 (by decide) (by decide)).2 7

theorem foldl_proj {α β γ : Type _} (g : α → γ) (f : α → β → α) (l : List β) (s : α)
    (h : ∀ s b, g (f s b) = g s) : g (l.foldl f s) = g s := by
  induction l generalizing s with
  | nil => rfl
  | cons b t ih => rw [List.foldl_cons, ih, h]

theorem innerLoop_n (O : Ops) (eid : String) (f : ℕ) (test : List ℕ) (xtrS xteS : Mat)
    (yteS : Vec) (sst : ℚ) (npc : ℕ) (st : CVState) :
    (innerLoop O eid f test xtrS xteS yteS sst npc st).n = st.n := by
  unfold innerLoop
  refine foldl_proj (fun s : CVState => s.n) _ _ _ ?_
  intro s kk
  unfold innerStep
  split <;> rfl

theorem innerLoop_p (O : Ops) (eid : String) (f : ℕ) (test : List ℕ) (xtrS xteS : Mat)
    (yteS : Vec) (sst : ℚ) (npc : ℕ) (st : CVState) :
    (innerLoop O eid f test xtrS xteS yteS sst npc st).p = st.p := by
  unfold innerLoop
  refine foldl_proj (fun s : CVState => s.p) _ _ _ ?_
  intro s kk
  unfold innerStep
  split <;> rfl

theorem innerLoop_kfold (O : Ops) (eid : String) (f : ℕ) (test : List ℕ) (xtrS xteS : Mat)
    (yteS : Vec) (sst : ℚ) (npc : ℕ) (st : CVState) :
    (innerLoop O eid f test xtrS xteS yteS sst npc st).kfold = st.kfold := by
  unfold innerLoop
  refine foldl_proj (fun s : CVState => s.kfold) _ _ _ ?_
  intro s kk
  unfold innerStep
  split <;> rfl

theorem innerLoop_eid (O : Ops) (eid : String) (f : ℕ) (test : List ℕ) (xtrS xteS : Mat)
    (yteS : Vec) (sst : ℚ) (npc : ℕ) (st : CVState) :
    (innerLoop O eid f test xtrS xteS yteS sst npc st).estimator_id = st.estimator_id := by
  unfold innerLoop
  refine foldl_proj (fun s : CVState => s.estimator_id) _ _ _ ?_
  intro s kk
  unfold innerStep
  split <;> rfl

theorem innerLoop_junk (O : Ops) (eid : String) (f : ℕ) (test : List ℕ) (xtrS xteS : Mat)
    (yteS : Vec) (sst : ℚ) (npc : ℕ) (st : CVState) :
    (innerLoop O eid f test xtrS xteS yteS sst npc st).junk = st.junk := by
  unfold innerLoop
  refine foldl_proj (fun s : CVState => s.junk) _ _ _ ?_
  intro s kk
  unfold innerStep
  split <;> rfl

theorem innerLoop_y (O : Ops) (eid : String) (f : ℕ) (test : List ℕ) (xtrS xteS : Mat)
    (yteS : Vec) (sst : ℚ) (npc : ℕ) (st : CVState) :
    (innerLoop O eid f test xtrS xteS yteS sst npc st).y = st.y := by
  unfold innerLoop
  refine foldl_proj (fun s : CVState => s.y) _ _ _ ?_
  intro s kk
  unfold innerStep
  split <;> rfl

theorem innerLoop_est (O : Ops) (eid : String) (f : ℕ) (test : List ℕ) (xtrS xteS : Mat)
    (yteS : Vec) (sst : ℚ) (npc : ℕ) (st : CVState) :
    (innerLoop O eid f test xtrS xteS yteS sst npc st).est = st.est := by
  unfold innerLoop
  refine foldl_proj (fun s : CVState => s.est) _ _ _ ?_
  intro s kk
  unfold innerStep
  split <;> rfl

theorem innerLoop_npc0 (O : Ops) (eid : String) (f : ℕ) (test : List ℕ) (xtrS xteS : Mat)
    (yteS : Vec) (sst : ℚ) (npc : ℕ) (st : CVState) :
    (innerLoop O eid f test xtrS xteS yteS sst npc st).npc0 = st.npc0 := by
  unfold innerLoop
  refine foldl_proj (fun s : CVState => s.npc0) _ _ _ ?_
  intro s kk
  unfold innerStep
  split <;> rfl

theorem innerLoop_ssyList (O : Ops) (eid : String) (f : ℕ) (test : List ℕ) (xtrS xteS : Mat)
    (yteS : Vec) (sst : ℚ) (npc : ℕ) (st : CVState) :
    (innerLoop O eid f test xtrS xteS yteS sst npc st).ssyList = st.ssyList := by
  unfold innerLoop
  refine foldl_proj (fun s : CVState => s.ssyList) _ _ _ ?_
  intro s kk
  unfold innerStep
  split <;> rfl

theorem innerLoop_ssy (O : Ops) (eid : String) (f : ℕ) (test : List ℕ) (xtrS xteS : Mat)
    (yteS : Vec) (sst : ℚ) (npc : ℕ) (st : CVState) :
    (innerLoop O eid f test xtrS xteS yteS sst npc st).ssy = st.ssy := by
  unfold innerLoop
  refine foldl_proj (fun s : CVState => s.ssy) _ _ _ ?_
  intro s kk
  unfold innerStep
  split <;> rfl

theorem foldStep_n (O : Ops) (eid : String) (x : Mat) (y : Vec) (st : CVState) (f : ℕ) :
    (foldStep O eid x y st f).n = st.n := by
  simp only [foldStep]
  exact innerLoop_n _ _ _ _ _ _ _ _ _ _

theorem foldStep_p (O : Ops) (eid : String) (x : Mat) (y : Vec) (st : CVState) (f : ℕ) :
    (foldStep O eid x y st f).p = st.p := by
  simp only [foldStep]
  exact innerLoop_p _ _ _ _ _ _ _ _ _ _

theorem foldStep_kfold (O : Ops) (eid : String) (x : Mat) (y : Vec) (st : CVState) (f : ℕ) :
    (foldStep O eid x y st f).kfold = st.kfold := by
  simp only [foldStep]
  exact innerLoop_kfold _ _ _ _ _ _ _ _ _ _

theorem foldStep_eid (O : Ops) (eid : String) (x : Mat) (y : Vec) (st : CVState) (f : ℕ) :
    (foldStep O eid x y st f).estimator_id = st.estimator_id := by
  simp only [foldStep]
  exact innerLoop_eid _ _ _ _ _ _ _ _ _ _

theorem foldStep_junk (O : Ops) (eid : String) (x : Mat) (y : Vec) (st : CVState) (f : ℕ) :
    (foldStep O eid x y st f).junk = st.junk := by
  simp only [foldStep]
  exact innerLoop_junk _ _ _ _ _ _ _ _ _ _

theorem foldStep_y (O : Ops) (eid : String) (x : Mat) (y : Vec) (st : CVState) (f : ℕ) :
    (foldStep O eid x y st f).y = st.y := by
  simp only [foldStep]
  exact innerLoop_y _ _ _ _ _ _ _ _ _ _

theorem foldStep_npc0 (O : Ops) (eid : String) (x : Mat) (y : Vec) (st : CVState) (f : ℕ) :
    (foldStep O eid x y st f).npc0 = min st.npc0 (npcF st.n st.p st.kfold f) := by
  simp only [foldStep, npcF]
  exact innerLoop_npc0 _ _ _ _ _ _ _ _ _ _

theorem foldStep_ssyList (O : Ops) (eid : String) (x : Mat) (y : Vec) (st : CVState) (f : ℕ) :
    (foldStep O eid x y st f).ssyList
      = st.ssyList ++ [sumSqV (yteScaledF O y st.n st.kfold f)] := by
  simp only [foldStep, yteScaledF]
  rw [innerLoop_ssyList]

theorem asgn_not {f c : ℕ} {idx : List ℕ} {vals : Vec} {log : Log} {i c' : ℕ}
    (h : ¬(c' = c ∧ i ∈ idx)) : asgn f c idx vals log i c' = log i c' := by
  simp only [asgn, if_neg h]

theorem asgn_at {f c : ℕ} {idx : List ℕ} {vals : Vec} {log : Log} {i : ℕ}
    (h : i ∈ idx) : asgn f c idx vals log i c = log i c ++ [(f, vals.getD (idx.indexOf i) 0)] := by
  simp [asgn, h]

theorem innerLoop_zero (O : Ops) (eid : String) (f : ℕ) (test : List ℕ) (xtrS xteS : Mat)
    (yteS : Vec) (sst : ℚ) (st : CVState) :
    innerLoop O eid f test xtrS xteS yteS sst 0 st = st := rfl

theorem innerLoop_succ (O : Ops) (eid : String) (f : ℕ) (test : List ℕ) (xtrS xteS : Mat)
    (yteS : Vec) (sst : ℚ) (m : ℕ) (st : CVState) :
    innerLoop O eid f test xtrS xteS yteS sst (m + 1) st
      = innerStep O eid f test xtrS xteS yteS sst
          (innerLoop O eid f test xtrS xteS yteS sst m st) (m + 1) := by
  unfold innerLoop
  rw [List.range_succ, List.foldl_append, List.foldl_cons, List.foldl_nil]

theorem innerStep_ypred_shape (O : Ops) (eid : String) (f : ℕ) (test : List ℕ)
    (xtrS xteS : Mat) (yteS : Vec) (sst : ℚ) (st : CVState) (k : ℕ) :
    ∃ v, (innerStep O eid f test xtrS xteS yteS sst st k).ypredLog
      = asgn f (k - 1) test v st.ypredLog := by
  unfold innerStep
  split
  · exact ⟨_, rfl⟩
  · exact ⟨_, rfl⟩

theorem innerStep_pressy_shape (O : Ops) (eid : String) (f : ℕ) (test : List ℕ)
    (xtrS xteS : Mat) (yteS : Vec) (sst : ℚ) (st : CVState) (k : ℕ) :
    ∃ v, (innerStep O eid f test xtrS xteS yteS sst st k).pressyLog
      = asgn f (k - 1) test v st.pressyLog := by
  unfold innerStep
  split
  · exact ⟨_, rfl⟩
  · exact ⟨_, rfl⟩

theorem innerStep_tpred_shape (O : Ops) (eid : String) (f : ℕ) (test : List ℕ)
    (xtrS xteS : Mat) (yteS : Vec) (sst : ℚ) (st : CVState) (k : ℕ) (heid : eid = "opls") :
    ∃ v, (innerStep O eid f test xtrS xteS yteS sst st k).tpredLog
      = asgn f (k - 1) test v st.tpredLog := by
  subst heid
  unfold innerStep
  rw [if_pos rfl]
  exact ⟨_, rfl⟩

theorem innerStep_tortho_single (O : Ops) (eid : String) (f : ℕ) (test : List ℕ)
    (xtrS xteS : Mat) (yteS : Vec) (sst : ℚ) (st : CVState) (k : ℕ)
    (heid : eid = "opls") (hlen : xteS.length = 1) :
    ∃ v, (innerStep O eid f test xtrS xteS yteS sst st k).torthoLog
      = asgn f 0 test v st.torthoLog := by
  subst heid
  unfold innerStep
  rw [if_pos rfl]
  refine ⟨[entry (O.correct st.est xteS k).2 0 0], ?_⟩
  dsimp only
  rw [if_pos hlen]

theorem innerStep_tortho_multi (O : Ops) (eid : String) (f : ℕ) (test : List ℕ)
    (xtrS xteS : Mat) (yteS : Vec) (sst : ℚ) (st : CVState) (k : ℕ)
    (heid : eid = "opls") (hlen : ¬ xteS.length = 1) :
    ∃ v, (innerStep O eid f test xtrS xteS yteS sst st k).torthoLog
      = asgn f (k - 1) test v st.torthoLog := by
  subst heid
  unfold innerStep
  rw [if_pos rfl]
  refine ⟨colOf (O.correct st.est xteS k).2 0, ?_⟩
  dsimp only
  rw [if_neg hlen]

theorem innerStep_logs_pls (O : Ops) (eid : String) (f : ℕ) (test : List ℕ)
    (xtrS xteS : Mat) (yteS : Vec) (sst : ℚ) (st : CVState) (k : ℕ) (hne : eid ≠ "opls") :
    (innerStep O eid f test xtrS xteS yteS sst st k).torthoLog = st.torthoLog
    ∧ (innerStep O eid f test xtrS xteS yteS sst st k).tpredLog = st.tpredLog := by
  unfold innerStep
  rw [if_neg hne]
  exact ⟨rfl, rfl⟩

theorem innerLoop_ypred_writes (O : Ops) (eid : String) (f : ℕ) (test : List ℕ)
    (xtrS xteS : Mat) (yteS : Vec) (sst : ℚ) :
    ∀ (npc : ℕ) (st : CVState) (i c : ℕ),
      ∃ ext, (innerLoop O eid f test xtrS xteS yteS sst npc st).ypredLog i c
          = st.ypredLog i c ++ ext
        ∧ ext.length = (if i ∈ test ∧ c < npc then 1 else 0)
        ∧ ∀ e ∈ ext, e.1 = f := by
  intro npc
  induction npc with
  | zero =>
    intro st i c
    exact ⟨[], by simp [innerLoop_zero], by simp, by simp⟩
  | succ m ih =>
    intro st i c
    obtain ⟨ext, he, hl, hf⟩ := ih st i c
    obtain ⟨v, hv⟩ := innerStep_ypred_shape O eid f test xtrS xteS yteS sst
      (innerLoop O eid f test xtrS xteS yteS sst m st) (m + 1)
    rw [innerLoop_succ, hv]
    by_cases hmc : c = m ∧ i ∈ test
    · obtain ⟨hc, hm⟩ := hmc
      subst hc
      have hl0 : ext = [] := List.length_eq_zero.1 (by simpa using hl)
      refine ⟨[(f, v.getD (test.indexOf i) 0)], ?_, by simp [hm], by simp⟩
      rw [Nat.add_sub_cancel, asgn_at hm, he, hl0, List.append_nil]
    · refine ⟨ext, ?_, ?_, hf⟩
      · rw [Nat.add_sub_cancel, asgn_not hmc, he]
      · rw [hl]
        refine if_congr ?_ rfl rfl
        constructor
        · rintro ⟨h1, h2⟩
          exact ⟨h1, by omega⟩
        · rintro ⟨h1, h2⟩
          have hc : c ≠ m := fun h => hmc ⟨h, h1⟩
          exact ⟨h1, by omega⟩

theorem innerLoop_pressy_writes (O : Ops) (eid : String) (f : ℕ) (test : List ℕ)
    (xtrS xteS : Mat) (yteS : Vec) (sst : ℚ) :
    ∀ (npc : ℕ) (st : CVState) (i c : ℕ),
      ∃ ext, (innerLoop O eid f test xtrS xteS yteS sst npc st).pressyLog i c
          = st.pressyLog i c ++ ext
        ∧ ext.length = (if i ∈ test ∧ c < npc then 1 else 0)
        ∧ ∀ e ∈ ext, e.1 = f := by
  intro npc
  induction npc with
  | zero =>
    intro st i c
    exact ⟨[], by simp [innerLoop_zero], by simp, by simp⟩
  | succ m ih =>
    intro st i c
    obtain ⟨ext, he, hl, hf⟩ := ih st i c
    obtain ⟨v, hv⟩ := innerStep_pressy_shape O eid f test xtrS xteS yteS sst
      (innerLoop O eid f test xtrS xteS yteS sst m st) (m + 1)
    rw [innerLoop_succ, hv]
    by_cases hmc : c = m ∧ i ∈ test
    · obtain ⟨hc, hm⟩ := hmc
      subst hc
      have hl0 : ext = [] := List.length_eq_zero.1 (by simpa using hl)
      refine ⟨[(f, v.getD (test.indexOf i) 0)], ?_, by simp [hm], by simp⟩
      rw [Nat.add_sub_cancel, asgn_at hm, he, hl0, List.append_nil]
    · refine ⟨ext, ?_, ?_, hf⟩
      · rw [Nat.add_sub_cancel, asgn_not hmc, he]
      · rw [hl]
        refine if_congr ?_ rfl rfl
        constructor
        · rintro ⟨h1, h2⟩
          exact ⟨h1, by omega⟩
        · rintro ⟨h1, h2⟩
          have hc : c ≠ m := fun h => hmc ⟨h, h1⟩
          exact ⟨h1, by omega⟩

theorem innerLoop_tpred_writes (O : Ops) (eid : String) (f : ℕ) (test : List ℕ)
    (xtrS xteS : Mat) (yteS : Vec) (sst : ℚ) (heid : eid = "opls") :
    ∀ (npc : ℕ) (st : CVState) (i c : ℕ),
      ∃ ext, (innerLoop O eid f test xtrS xteS yteS sst npc st).tpredLog i c
          = st.tpredLog i c ++ ext
        ∧ ext.length = (if i ∈ test ∧ c < npc then 1 else 0)
        ∧ ∀ e ∈ ext, e.1 = f := by
  intro npc
  induction npc with
  | zero =>
    intro st i c
    exact ⟨[], by simp [innerLoop_zero], by simp, by simp⟩
  | succ m ih =>
    intro st i c
    obtain ⟨ext, he, hl, hf⟩ := ih st i c
    obtain ⟨v, hv⟩ := innerStep_tpred_shape O eid f test xtrS xteS yteS sst
      (innerLoop O eid f test xtrS xteS yteS sst m st) (m + 1) heid
    rw [innerLoop_succ, hv]
    by_cases hmc : c = m ∧ i ∈ test
    · obtain ⟨hc, hm⟩ := hmc
      subst hc
      have hl0 : ext = [] := List.length_eq_zero.1 (by simpa using hl)
      refine ⟨[(f, v.getD (test.indexOf i) 0)], ?_, by simp [hm], by simp⟩
      rw [Nat.add_sub_cancel, asgn_at hm, he, hl0, List.append_nil]
    · refine ⟨ext, ?_, ?_, hf⟩
      · rw [Nat.add_sub_cancel, asgn_not hmc, he]
      · rw [hl]
        refine if_congr ?_ rfl rfl
        constructor
        · rintro ⟨h1, h2⟩
          exact ⟨h1, by omega⟩
        · rintro ⟨h1, h2⟩
          have hc : c ≠ m := fun h => hmc ⟨h, h1⟩
          exact ⟨h1, by omega⟩

theorem innerLoop_tortho_single_writes (O : Ops) (eid : String) (f : ℕ) (test : List ℕ)
    (xtrS xteS : Mat) (yteS : Vec) (sst : ℚ) (heid : eid = "opls") (hlen : xteS.length = 1) :
    ∀ (npc : ℕ) (st : CVState) (i c : ℕ),
      ∃ ext, (innerLoop O eid f test xtrS xteS yteS sst npc st).torthoLog i c
          = st.torthoLog i c ++ ext
        ∧ ext.length = (if i ∈ test ∧ c = 0 then npc else 0)
        ∧ ∀ e ∈ ext, e.1 = f := by
  intro npc
  induction npc with
  | zero =>
    intro st i c
    exact ⟨[], by simp [innerLoop_zero], by simp, by simp⟩
  | succ m ih =>
    intro st i c
    obtain ⟨ext, he, hl, hf⟩ := ih st i c
    obtain ⟨v, hv⟩ := innerStep_tortho_single O eid f test xtrS xteS yteS sst
      (innerLoop O eid f test xtrS xteS yteS sst m st) (m + 1) heid hlen
    rw [innerLoop_succ, hv]
    by_cases hmc : c = 0 ∧ i ∈ test
    · obtain ⟨hc, hm⟩ := hmc
      subst hc
      refine ⟨ext ++ [(f, v.getD (test.indexOf i) 0)], ?_, ?_, ?_⟩
      · rw [asgn_at hm, he, List.append_assoc]
      · rw [List.length_append, hl]
        simp [hm]
      · intro e hee
        rcases List.mem_append.1 hee with h | h
        · exact hf e h
        · rw [List.mem_singleton.1 h]
    · have hmc' : ¬(i ∈ test ∧ c = 0) := fun h => hmc ⟨h.2, h.1⟩
      refine ⟨ext, ?_, ?_, hf⟩
      · rw [asgn_not hmc, he]
      · rw [hl, if_neg hmc', if_neg hmc']

theorem innerStep_tortho_row (O : Ops) (eid : String) (f : ℕ) (test : List ℕ)
    (xtrS xteS : Mat) (yteS : Vec) (sst : ℚ) (st : CVState) (k : ℕ) (i c : ℕ)
    (hmem : i ∉ test) :
    (innerStep O eid f test xtrS xteS yteS sst st k).torthoLog i c = st.torthoLog i c := by
  by_cases heid : eid = "opls"
  · by_cases hlen : xteS.length = 1
    · obtain ⟨v, hv⟩ := innerStep_tortho_single O eid f test xtrS xteS yteS sst st k heid hlen
      rw [hv]
      exact asgn_not (fun h => hmem h.2)
    · obtain ⟨v, hv⟩ := innerStep_tortho_multi O eid f test xtrS xteS yteS sst st k heid hlen
      rw [hv]
      exact asgn_not (fun h => hmem h.2)
  · rw [(innerStep_logs_pls O eid f test xtrS xteS yteS sst st k heid).1]

theorem innerStep_tpred_row (O : Ops) (eid : String) (f : ℕ) (test : List ℕ)
    (xtrS xteS : Mat) (yteS : Vec) (sst : ℚ) (st : CVState) (k : ℕ) (i c : ℕ)
    (hmem : i ∉ test) :
    (innerStep O eid f test xtrS xteS yteS sst st k).tpredLog i c = st.tpredLog i c := by
  by_cases heid : eid = "opls"
  · obtain ⟨v, hv⟩ := innerStep_tpred_shape O eid f test xtrS xteS yteS sst st k heid
    rw [hv]
    exact asgn_not (fun h => hmem h.2)
  · rw [(innerStep_logs_pls O eid f test xtrS xteS yteS sst st k heid).2]

theorem innerLoop_ypred_row (O : Ops) (eid : String) (f : ℕ) (test : List ℕ)
    (xtrS xteS : Mat) (yteS : Vec) (sst : ℚ) (npc : ℕ) (st : CVState) (i c : ℕ)
    (hmem : i ∉ test) :
    (innerLoop O eid f test xtrS xteS yteS sst npc st).ypredLog i c = st.ypredLog i c := by
  unfold innerLoop
  refine foldl_proj (fun s : CVState => s.ypredLog i c) _ _ _ ?_
  intro s kk
  dsimp only
  obtain ⟨v, hv⟩ := innerStep_ypred_shape O eid f test xtrS xteS yteS sst s (kk + 1)
  rw [hv]
  exact asgn_not (fun h => hmem h.2)

theorem innerLoop_pressy_row (O : Ops) (eid : String) (f : ℕ) (test : List ℕ)
    (xtrS xteS : Mat) (yteS : Vec) (sst : ℚ) (npc : ℕ) (st : CVState) (i c : ℕ)
    (hmem : i ∉ test) :
    (innerLoop O eid f test xtrS xteS yteS sst npc st).pressyLog i c = st.pressyLog i c := by
  unfold innerLoop
  refine foldl_proj (fun s : CVState => s.pressyLog i c) _ _ _ ?_
  intro s kk
  dsimp only
  obtain ⟨v, hv⟩ := innerStep_pressy_shape O eid f test xtrS xteS yteS sst s (kk + 1)
  rw [hv]
  exact asgn_not (fun h => hmem h.2)

theorem innerLoop_tortho_row (O : Ops) (eid : String) (f : ℕ) (test : List ℕ)
    (xtrS xteS : Mat) (yteS : Vec) (sst : ℚ) (npc : ℕ) (st : CVState) (i c : ℕ)
    (hmem : i ∉ test) :
    (innerLoop O eid f test xtrS xteS yteS sst npc st).torthoLog i c = st.torthoLog i c := by
  unfold innerLoop
  refine foldl_proj (fun s : CVState => s.torthoLog i c) _ _ _ ?_
  intro s kk
  exact innerStep_tortho_row O eid f test xtrS xteS yteS sst s (kk + 1) i c hmem

theorem innerLoop_tpred_row (O : Ops) (eid : String) (f : ℕ) (test : List ℕ)
    (xtrS xteS : Mat) (yteS : Vec) (sst : ℚ) (npc : ℕ) (st : CVState) (i c : ℕ)
    (hmem : i ∉ test) :
    (innerLoop O eid f test xtrS xteS yteS sst npc st).tpredLog i c = st.tpredLog i c := by
  unfold innerLoop
  refine foldl_proj (fun s : CVState => s.tpredLog i c) _ _ _ ?_
  intro s kk
  exact innerStep_tpred_row O eid f test xtrS xteS yteS sst s (kk + 1) i c hmem

theorem foldStep_row_unchanged (O : Ops) (eid : String) (x : Mat) (y : Vec) (st : CVState)
    (f i c : ℕ) (hmem : i ∉ _split_test st.n st.kfold f) :
    (foldStep O eid x y st f).ypredLog i c = st.ypredLog i c
    ∧ (foldStep O eid x y st f).pressyLog i c = st.pressyLog i c
    ∧ (foldStep O eid x y st f).torthoLog i c = st.torthoLog i c
    ∧ (foldStep O eid x y st f).tpredLog i c = st.tpredLog i c := by
  simp only [foldStep]
  exact ⟨innerLoop_ypred_row _ _ _ _ _ _ _ _ _ _ i c hmem,
    innerLoop_pressy_row _ _ _ _ _ _ _ _ _ _ i c hmem,
    innerLoop_tortho_row _ _ _ _ _ _ _ _ _ _ i c hmem,
    innerLoop_tpred_row _ _ _ _ _ _ _ _ _ _ i c hmem⟩

theorem foldStep_ypred_write (O : Ops) (eid : String) (x : Mat) (y : Vec) (st : CVState)
    (f i c : ℕ) (hmem : i ∈ _split_test st.n st.kfold f)
    (hc : c < npcF st.n st.p st.kfold f) :
    ∃ v, (foldStep O eid x y st f).ypredLog i c = st.ypredLog i c ++ [(f, v)] := by
  simp only [foldStep]
  obtain ⟨ext, he, hl, hf⟩ := innerLoop_ypred_writes O eid f (_split_test st.n st.kfold f)
    _ _ _ _ (min (_split_train st.n st.kfold f).length st.p) _ i c
  rw [he]
  have hc' : c < min (_split_train st.n st.kfold f).length st.p := hc
  rw [if_pos (And.intro hmem hc')] at hl
  obtain ⟨e, hee⟩ := List.length_eq_one.1 hl
  subst hee
  have hef : e.1 = f := hf e (List.mem_singleton_self e)
  exact ⟨e.2, by rw [← hef]⟩

theorem foldStep_pressy_write (O : Ops) (eid : String) (x : Mat) (y : Vec) (st : CVState)
    (f i c : ℕ) (hmem : i ∈ _split_test st.n st.kfold f)
    (hc : c < npcF st.n st.p st.kfold f) :
    ∃ v, (foldStep O eid x y st f).pressyLog i c = st.pressyLog i c ++ [(f, v)] := by
  simp only [foldStep]
  obtain ⟨ext, he, hl, hf⟩ := innerLoop_pressy_writes O eid f (_split_test st.n st.kfold f)
    _ _ _ _ (min (_split_train st.n st.kfold f).length st.p) _ i c
  rw [he]
  have hc' : c < min (_split_train st.n st.kfold f).length st.p := hc
  rw [if_pos (And.intro hmem hc')] at hl
  obtain ⟨e, hee⟩ := List.length_eq_one.1 hl
  subst hee
  have hef : e.1 = f := hf e (List.mem_singleton_self e)
  exact ⟨e.2, by rw [← hef]⟩

theorem foldStep_tpred_write (O : Ops) (eid : String) (x : Mat) (y : Vec) (st : CVState)
    (f i c : ℕ) (heid : eid = "opls") (hmem : i ∈ _split_test st.n st.kfold f)
    (hc : c < npcF st.n st.p st.kfold f) :
    ∃ v, (foldStep O eid x y st f).tpredLog i c = st.tpredLog i c ++ [(f, v)] := by
  simp only [foldStep]
  obtain ⟨ext, he, hl, hf⟩ := innerLoop_tpred_writes O eid f (_split_test st.n st.kfold f)
    _ _ _ _ heid (min (_split_train st.n st.kfold f).length st.p) _ i c
  rw [he]
  have hc' : c < min (_split_train st.n st.kfold f).length st.p := hc
  rw [if_pos (And.intro hmem hc')] at hl
  obtain ⟨e, hee⟩ := List.length_eq_one.1 hl
  subst hee
  have hef : e.1 = f := hf e (List.mem_singleton_self e)
  exact ⟨e.2, by rw [← hef]⟩

theorem foldStep_tortho_single (O : Ops) (eid : String) (x : Mat) (y : Vec) (st : CVState)
    (f i : ℕ) (heid : eid = "opls")
    (hO : ∀ r m, (O.learnM r m).length = m.length)
    (htest : _split_test st.n st.kfold f = [i]) :
    (∃ ext, (foldStep O eid x y st f).torthoLog i 0 = st.torthoLog i 0 ++ ext
      ∧ ext.length = npcF st.n st.p st.kfold f ∧ ∀ e ∈ ext, e.1 = f)
    ∧ (∀ c, 1 ≤ c → (foldStep O eid x y st f).torthoLog i c = st.torthoLog i c) := by
  have hmem : i ∈ _split_test st.n st.kfold f := by
    rw [htest]
    exact List.mem_singleton_self i
  have hlen : (Scaler.scaleM O (Scaler.fitM O (rowsAt x (_split_train st.n st.kfold f))).2
      (rowsAt x (_split_test st.n st.kfold f))).length = 1 := by
    show (O.learnM (rowsAt x (_split_train st.n st.kfold f))
      (rowsAt x (_split_test st.n st.kfold f))).length = 1
    rw [hO]
    simp [rowsAt, htest]
  constructor
  · simp only [foldStep]
    obtain ⟨ext, he, hl, hf⟩ := innerLoop_tortho_single_writes O eid f
      (_split_test st.n st.kfold f) _ _ _ _ heid hlen
      (min (_split_train st.n st.kfold f).length st.p) _ i 0
    rw [he]
    rw [if_pos (And.intro hmem rfl)] at hl
    exact ⟨ext, rfl, hl, hf⟩
  · intro c hc
    simp only [foldStep]
    obtain ⟨ext, he, hl, hf⟩ := innerLoop_tortho_single_writes O eid f
      (_split_test st.n st.kfold f) _ _ _ _ heid hlen
      (min (_split_train st.n st.kfold f).length st.p) _ i c
    rw [he]
    rw [if_neg (fun h => by omega : ¬(i ∈ _split_test st.n st.kfold f ∧ c = 0))] at hl
    rw [List.length_eq_zero.1 hl, List.append_nil]

theorem outer_rows_unchanged (O : Ops) (eid : String) (x : Mat) (y : Vec) (i : ℕ) :
    ∀ (fs : List ℕ) (st : CVState),
      (∀ f' ∈ fs, i ∉ _split_test st.n st.kfold f') →
      ∀ c, (fs.foldl (foldStep O eid x y) st).ypredLog i c = st.ypredLog i c
        ∧ (fs.foldl (foldStep O eid x y) st).pressyLog i c = st.pressyLog i c
        ∧ (fs.foldl (foldStep O eid x y) st).torthoLog i c = st.torthoLog i c
        ∧ (fs.foldl (foldStep O eid x y) st).tpredLog i c = st.tpredLog i c := by
  intro fs
  induction fs with
  | nil =>
    intro st h c
    exact ⟨rfl, rfl, rfl, rfl⟩
  | cons a t ih =>
    intro st h c
    rw [List.foldl_cons]
    have ha : i ∉ _split_test st.n st.kfold a := h a (List.mem_cons_self a t)
    have hrow := foldStep_row_unchanged O eid x y st a i c ha
    have ht := ih (foldStep O eid x y st a) (fun f' hf' => by
      rw [foldStep_n, foldStep_kfold]
      exact h f' (List.mem_cons_of_mem a hf')) c
    exact ⟨ht.1.trans hrow.1, ht.2.1.trans hrow.2.1,
      ht.2.2.1.trans hrow.2.2.1, ht.2.2.2.trans hrow.2.2.2⟩

theorem foldl_range_split {α : Type _} (step : α → ℕ → α) (kfold f : ℕ) (hf : f < kfold)
    (s : α) :
    (List.range kfold).foldl step s
      = ((List.range (kfold - f - 1)).map (fun t => f + 1 + t)).foldl step
          (step ((List.range f).foldl step s) f) := by
  have h1 : kfold = (f + 1) + (kfold - f - 1) := by omega
  conv_lhs => rw [h1]
  rw [List.range_add, List.foldl_append, List.range_succ, List.foldl_append,
    List.foldl_cons, List.foldl_nil]

theorem outer_n (O : Ops) (eid : String) (x : Mat) (y : Vec) (fs : List ℕ) (st : CVState) :
    (fs.foldl (foldStep O eid x y) st).n = st.n := by
  refine foldl_proj (fun s : CVState => s.n) _ _ _ ?_
  intro s b
  exact foldStep_n O eid x y s b

theorem outer_p (O : Ops) (eid : String) (x : Mat) (y : Vec) (fs : List ℕ) (st : CVState) :
    (fs.foldl (foldStep O eid x y) st).p = st.p := by
  refine foldl_proj (fun s : CVState => s.p) _ _ _ ?_
  intro s b
  exact foldStep_p O eid x y s b

theorem outer_kfold (O : Ops) (eid : String) (x : Mat) (y : Vec) (fs : List ℕ) (st : CVState) :
    (fs.foldl (foldStep O eid x y) st).kfold = st.kfold := by
  refine foldl_proj (fun s : CVState => s.kfold) _ _ _ ?_
  intro s b
  exact foldStep_kfold O eid x y s b

theorem outer_eid (O : Ops) (eid : String) (x : Mat) (y : Vec) (fs : List ℕ) (st : CVState) :
    (fs.foldl (foldStep O eid x y) st).estimator_id = st.estimator_id := by
  refine foldl_proj (fun s : CVState => s.estimator_id) _ _ _ ?_
  intro s b
  exact foldStep_eid O eid x y s b

theorem outer_junk (O : Ops) (eid : String) (x : Mat) (y : Vec) (fs : List ℕ) (st : CVState) :
    (fs.foldl (foldStep O eid x y) st).junk = st.junk := by
  refine foldl_proj (fun s : CVState => s.junk) _ _ _ ?_
  intro s b
  exact foldStep_junk O eid x y s b

theorem outer_y (O : Ops) (eid : String) (x : Mat) (y : Vec) (fs : List ℕ) (st : CVState) :
    (fs.foldl (foldStep O eid x y) st).y = st.y := by
  refine foldl_proj (fun s : CVState => s.y) _ _ _ ?_
  intro s b
  exact foldStep_y O eid x y s b

theorem outer_npc0 (O : Ops) (eid : String) (x : Mat) (y : Vec) (n p kfold : ℕ) :
    ∀ (fs : List ℕ) (st : CVState), st.n = n → st.p = p → st.kfold = kfold →
      (fs.foldl (foldStep O eid x y) st).npc0
        = fs.foldl (fun m f => min m (npcF n p kfold f)) st.npc0 := by
  intro fs
  induction fs with
  | nil =>
    intro st h1 h2 h3
    rfl
  | cons a t ih =>
    intro st h1 h2 h3
    rw [List.foldl_cons, List.foldl_cons,
      ih _ (by rw [foldStep_n, h1]) (by rw [foldStep_p, h2]) (by rw [foldStep_kfold, h3]),
      foldStep_npc0, h1, h2, h3]

theorem outer_ssyList (O : Ops) (eid : String) (x : Mat) (y : Vec) (n kfold : ℕ) :
    ∀ (fs : List ℕ) (st : CVState), st.n = n → st.kfold = kfold →
      (fs.foldl (foldStep O eid x y) st).ssyList
        = st.ssyList ++ fs.map (fun f => sumSqV (yteScaledF O y n kfold f)) := by
  intro fs
  induction fs with
  | nil =>
    intro st h1 h2
    simp
  | cons a t ih =>
    intro st h1 h2
    rw [List.foldl_cons,
      ih _ (by rw [foldStep_n, h1]) (by rw [foldStep_kfold, h2]),
      foldStep_ssyList, h1, h2, List.map_cons, List.append_assoc, List.singleton_append]

theorem foldl_min_le_init (h : ℕ → ℕ) (fs : List ℕ) (m0 : ℕ) :
    fs.foldl (fun m g => min m (h g)) m0 ≤ m0 := by
  induction fs generalizing m0 with
  | nil => exact Nat.le_refl _
  | cons a t ih => exact le_trans (ih _) (Nat.min_le_left _ _)

theorem foldl_min_le (h : ℕ → ℕ) (fs : List ℕ) :
    ∀ (m0 f : ℕ), f ∈ fs → fs.foldl (fun m g => min m (h g)) m0 ≤ h f := by
  induction fs with
  | nil =>
    intro m0 f hf
    cases hf
  | cons a t ih =>
    intro m0 f hf
    rw [List.foldl_cons]
    rcases List.mem_cons.1 hf with h1 | h1
    · subst h1
      exact le_trans (foldl_min_le_init h t _) (Nat.min_le_right _ _)
    · exact ih _ f h1

theorem scv_pres (st : CVState) :
    (_summary_cv st).n = st.n ∧ (_summary_cv st).p = st.p
    ∧ (_summary_cv st).kfold = st.kfold
    ∧ (_summary_cv st).estimator_id = st.estimator_id
    ∧ (_summary_cv st).junk = st.junk ∧ (_summary_cv st).y = st.y
    ∧ (_summary_cv st).npc0 = st.npc0 ∧ (_summary_cv st).ssy = st.ssy
    ∧ (_summary_cv st).ypredLog = st.ypredLog ∧ (_summary_cv st).pressyLog = st.pressyLog
    ∧ (_summary_cv st).torthoLog = st.torthoLog ∧ (_summary_cv st).tpredLog = st.tpredLog
    ∧ (_summary_cv st).est = st.est ∧ (_summary_cv st).scalerP = st.scalerP
    ∧ (_summary_cv st).pcv = st.pcv := by
  simp only [_summary_cv]
  split <;>
    exact ⟨rfl, rfl, rfl, rfl, rfl, rfl, rfl, rfl, rfl, rfl, rfl, rfl, rfl, rfl, rfl⟩

theorem scv_opt (st : CVState) : (_summary_cv st).opt = argminN (nmcOf st) := by
  simp only [_summary_cv]
  split <;> rfl

theorem scv_nmc (st : CVState) : (_summary_cv st).nmc = nmcOf st := by
  simp only [_summary_cv]
  split <;> rfl

theorem scv_q2 (st : CVState) :
    (_summary_cv st).q2 = (List.range st.npc0).map (fun c =>
      1 - ((List.range st.n).map (fun i => st.pressyV i c)).sum / st.ssy) := by
  simp only [_summary_cv]
  split <;> rfl

theorem sfit_pres (O : Ops) (x : Mat) (y : Vec) (st : CVState) :
    (_summary_fit O x y st).n = st.n ∧ (_summary_fit O x y st).p = st.p
    ∧ (_summary_fit O x y st).kfold = st.kfold
    ∧ (_summary_fit O x y st).estimator_id = st.estimator_id
    ∧ (_summary_fit O x y st).junk = st.junk ∧ (_summary_fit O x y st).y = st.y
    ∧ (_summary_fit O x y st).npc0 = st.npc0 ∧ (_summary_fit O x y st).ssy = st.ssy
    ∧ (_summary_fit O x y st).ypredLog = st.ypredLog
    ∧ (_summary_fit O x y st).pressyLog = st.pressyLog
    ∧ (_summary_fit O x y st).torthoLog = st.torthoLog
    ∧ (_summary_fit O x y st).tpredLog = st.tpredLog
    ∧ (_summary_fit O x y st).est = st.est ∧ (_summary_fit O x y st).scalerP = st.scalerP
    ∧ (_summary_fit O x y st).opt = st.opt ∧ (_summary_fit O x y st).nmc = st.nmc
    ∧ (_summary_fit O x y st).q2 = st.q2 ∧ (_summary_fit O x y st).pcv = st.pcv := by
  simp only [_summary_fit]
  split <;>
    exact ⟨rfl, rfl, rfl, rfl, rfl, rfl, rfl, rfl, rfl, rfl, rfl, rfl, rfl, rfl, rfl, rfl,
      rfl, rfl⟩

theorem com_pres (O : Ops) (x : Mat) (y : Vec) (st : CVState) :
    (_create_optimal_model O x y st).n = st.n ∧ (_create_optimal_model O x y st).p = st.p
    ∧ (_create_optimal_model O x y st).kfold = st.kfold
    ∧ (_create_optimal_model O x y st).estimator_id = st.estimator_id
    ∧ (_create_optimal_model O x y st).junk = st.junk
    ∧ (_create_optimal_model O x y st).y = st.y
    ∧ (_create_optimal_model O x y st).npc0 = st.npc0
    ∧ (_create_optimal_model O x y st).ssy = st.ssy
    ∧ (_create_optimal_model O x y st).ypredLog = st.ypredLog
    ∧ (_create_optimal_model O x y st).pressyLog = st.pressyLog
    ∧ (_create_optimal_model O x y st).torthoLog = st.torthoLog
    ∧ (_create_optimal_model O x y st).tpredLog = st.tpredLog
    ∧ (_create_optimal_model O x y st).opt = st.opt
    ∧ (_create_optimal_model O x y st).nmc = st.nmc
    ∧ (_create_optimal_model O x y st).q2 = st.q2
    ∧ (_create_optimal_model O x y st).pcv = st.pcv := by
  unfold _create_optimal_model
  have h := sfit_pres O (Scaler.fitM O x).1 (Scaler.fitV O y).1
    { st with scalerP := (Scaler.fitM O x).2,
              est := ((Scaler.fitM O x).1, (Scaler.fitV O y).1, st.opt + 1) }
  exact ⟨h.1, h.2.1, h.2.2.1, h.2.2.2.1, h.2.2.2.2.1, h.2.2.2.2.2.1, h.2.2.2.2.2.2.1,
    h.2.2.2.2.2.2.2.1, h.2.2.2.2.2.2.2.2.1, h.2.2.2.2.2.2.2.2.2.1,
    h.2.2.2.2.2.2.2.2.2.2.1, h.2.2.2.2.2.2.2.2.2.2.2.1,
    h.2.2.2.2.2.2.2.2.2.2.2.2.2.2.1, h.2.2.2.2.2.2.2.2.2.2.2.2.2.2.2.1,
    h.2.2.2.2.2.2.2.2.2.2.2.2.2.2.2.2.1, h.2.2.2.2.2.2.2.2.2.2.2.2.2.2.2.2.2⟩

theorem com_scalerP (O : Ops) (x : Mat) (y : Vec) (st : CVState) :
    (_create_optimal_model O x y st).scalerP = ScalerParams.matRef x := by
  unfold _create_optimal_model
  have h := sfit_pres O (Scaler.fitM O x).1 (Scaler.fitV O y).1
    { st with scalerP := (Scaler.fitM O x).2,
              est := ((Scaler.fitM O x).1, (Scaler.fitV O y).1, st.opt + 1) }
  exact h.2.2.2.2.2.2.2.2.2.2.2.2.2.1

theorem com_est (O : Ops) (x : Mat) (y : Vec) (st : CVState) :
    (_create_optimal_model O x y st).est = (O.learnM x x, O.learnV y y, st.opt + 1) := by
  unfold _create_optimal_model
  have h := sfit_pres O (Scaler.fitM O x).1 (Scaler.fitV O y).1
    { st with scalerP := (Scaler.fitM O x).2,
              est := ((Scaler.fitM O x).1, (Scaler.fitV O y).1, st.opt + 1) }
  exact h.2.2.2.2.2.2.2.2.2.2.2.2.1

theorem getD_map_range {α : Type _} (g : ℕ → α) (m c : ℕ) (d : α) (hc : c < m) :
    ((List.range m).map g).getD c d = g c := by
  simp [List.getD_eq_getElem?_getD, List.getElem?_map, List.getElem?_range, hc]

theorem listMinN_le (l : List ℕ) : ∀ m, m < l.length → listMinN l ≤ l.getD m 0 := by
  induction l with
  | nil =>
    intro m hm
    simp at hm
  | cons a t ih =>
    intro m hm
    cases t with
    | nil =>
      have hm0 : m = 0 := by
        simp at hm
        omega
      subst hm0
      simp [listMinN]
    | cons b r =>
      cases m with
      | zero =>
        exact Nat.min_le_left a (listMinN (b :: r))
      | succ m' =>
        have h1 := ih m' (by simpa using hm)
        rw [List.getD_cons_succ]
        exact le_trans (Nat.min_le_right a (listMinN (b :: r))) h1

theorem argminN_lt (l : List ℕ) (h : l ≠ []) : argminN l < l.length := by
  induction l with
  | nil => exact absurd rfl h
  | cons a t ih =>
    cases t with
    | nil => simp [argminN]
    | cons b r =>
      simp only [argminN]
      split
      · simp
      · have h2 := ih (List.cons_ne_nil b r)
        simp only [List.length_cons] at *
        omega

theorem argminN_getD (l : List ℕ) (h : l ≠ []) : l.getD (argminN l) 0 = listMinN l := by
  induction l with
  | nil => exact absurd rfl h
  | cons a t ih =>
    cases t with
    | nil => simp [argminN, listMinN]
    | cons b r =>
      simp only [argminN, listMinN]
      split
      · rename_i hle
        simp [Nat.min_eq_left hle]
      · rename_i hle
        have hge : listMinN (b :: r) ≤ a := Nat.le_of_lt (by omega)
        rw [List.getD_cons_succ, ih (List.cons_ne_nil b r), Nat.min_eq_right hge]

theorem argminN_first (l : List ℕ) : ∀ m, m < argminN l → listMinN l < l.getD m 0 := by
  induction l with
  | nil =>
    intro m hm
    simp [argminN] at hm
  | cons a t ih =>
    intro m hm
    cases t with
    | nil => simp [argminN] at hm
    | cons b r =>
      simp only [argminN] at hm
      split at hm
      · omega
      · rename_i hle
        have hlt : listMinN (b :: r) < a := by omega
        have hmin : listMinN (a :: b :: r) = listMinN (b :: r) := by
          simp [listMinN, Nat.min_eq_right (Nat.le_of_lt hlt)]
        cases m with
        | zero =>
          rw [hmin, List.getD_cons_zero]
          exact hlt
        | succ m' =>
          rw [hmin, List.getD_cons_succ]
          exact ih m' (by omega)

theorem nmcOf_congr (s t : CVState) (hn : t.n = s.n) (hnpc : t.npc0 = s.npc0)
    (hy : t.y = s.y) (hyl : t.ypredLog = s.ypredLog) (hj : t.junk = s.junk) :
    nmcOf t = nmcOf s := by
  simp only [nmcOf, predClassV, CVState.ypredV, hn, hnpc, hy, hyl, hj]

theorem q2form_congr (s t : CVState) (hn : t.n = s.n) (hnpc : t.npc0 = s.npc0)
    (hpl : t.pressyLog = s.pressyLog) (hj : t.junk = s.junk) (hssy : t.ssy = s.ssy) :
    (List.range t.npc0).map (fun c =>
        1 - ((List.range t.n).map (fun i => t.pressyV i c)).sum / t.ssy)
      = (List.range s.npc0).map (fun c =>
        1 - ((List.range s.n).map (fun i => s.pressyV i c)).sum / s.ssy) := by
  simp only [CVState.pressyV, hn, hnpc, hpl, hj, hssy]

theorem fit_basic (O : Ops) (eid : String) (kfold : ℕ) (x : Mat) (y : Vec)
    (junk : ℕ → ℕ → ℕ → ℚ) :
    (CrossValidation.fit O eid kfold x y junk).n = x.length
    ∧ (CrossValidation.fit O eid kfold x y junk).p = (x.headD []).length
    ∧ (CrossValidation.fit O eid kfold x y junk).kfold = kfold
    ∧ (CrossValidation.fit O eid kfold x y junk).estimator_id = eid
    ∧ (CrossValidation.fit O eid kfold x y junk).junk = junk
    ∧ (CrossValidation.fit O eid kfold x y junk).y = y := by
  simp only [CrossValidation.fit]
  refine ⟨?_, ?_, ?_, ?_, ?_, ?_⟩
  · rw [(com_pres _ _ _ _).1, (scv_pres _).1]
    exact outer_n O eid x y (List.range kfold) (fitInit eid kfold x y junk)
  · rw [(com_pres _ _ _ _).2.1, (scv_pres _).2.1]
    exact outer_p O eid x y (List.range kfold) (fitInit eid kfold x y junk)
  · rw [(com_pres _ _ _ _).2.2.1, (scv_pres _).2.2.1]
    exact outer_kfold O eid x y (List.range kfold) (fitInit eid kfold x y junk)
  · rw [(com_pres _ _ _ _).2.2.2.1, (scv_pres _).2.2.2.1]
    exact outer_eid O eid x y (List.range kfold) (fitInit eid kfold x y junk)
  · rw [(com_pres _ _ _ _).2.2.2.2.1, (scv_pres _).2.2.2.2.1]
    exact outer_junk O eid x y (List.range kfold) (fitInit eid kfold x y junk)
  · rw [(com_pres _ _ _ _).2.2.2.2.2.1, (scv_pres _).2.2.2.2.2.1]
    exact outer_y O eid x y (List.range kfold) (fitInit eid kfold x y junk)

theorem fit_npc0 (O : Ops) (eid : String) (kfold : ℕ) (x : Mat) (y : Vec)
    (junk : ℕ → ℕ → ℕ → ℚ) :
    (CrossValidation.fit O eid kfold x y junk).npc0
      = (List.range kfold).foldl
          (fun m f => min m (npcF x.length ((x.headD []).length) kfold f))
          (min x.length ((x.headD []).length)) := by
  simp only [CrossValidation.fit]
  rw [(com_pres _ _ _ _).2.2.2.2.2.2.1, (scv_pres _).2.2.2.2.2.2.1]
  exact outer_npc0 O eid x y x.length ((x.headD []).length) kfold (List.range kfold)
    (fitInit eid kfold x y junk) rfl rfl rfl

theorem fit_ssy (O : Ops) (eid : String) (kfold : ℕ) (x : Mat) (y : Vec)
    (junk : ℕ → ℕ → ℕ → ℚ) :
    (CrossValidation.fit O eid kfold x y junk).ssy
      = ((List.range kfold).map (fun f => sumSqV (yteScaledF O y x.length kfold f))).sum := by
  simp only [CrossValidation.fit]
  rw [(com_pres _ _ _ _).2.2.2.2.2.2.2.1, (scv_pres _).2.2.2.2.2.2.2.1]
  show ((List.range kfold).foldl (foldStep O eid x y) (fitInit eid kfold x y junk)).ssyList.sum
    = _
  rw [outer_ssyList O eid x y x.length kfold (List.range kfold)
    (fitInit eid kfold x y junk) rfl rfl]
  rfl

theorem fit_logs (O : Ops) (eid : String) (kfold : ℕ) (x : Mat) (y : Vec)
    (junk : ℕ → ℕ → ℕ → ℚ) :
    (CrossValidation.fit O eid kfold x y junk).ypredLog
        = ((List.range kfold).foldl (foldStep O eid x y) (fitInit eid kfold x y junk)).ypredLog
    ∧ (CrossValidation.fit O eid kfold x y junk).pressyLog
        = ((List.range kfold).foldl (foldStep O eid x y) (fitInit eid kfold x y junk)).pressyLog
    ∧ (CrossValidation.fit O eid kfold x y junk).torthoLog
        = ((List.range kfold).foldl (foldStep O eid x y) (fitInit eid kfold x y junk)).torthoLog
    ∧ (CrossValidation.fit O eid kfold x y junk).tpredLog
        = ((List.range kfold).foldl (foldStep O eid x y) (fitInit eid kfold x y junk)).tpredLog := by
  simp only [CrossValidation.fit]
  refine ⟨?_, ?_, ?_, ?_⟩
  · rw [(com_pres _ _ _ _).2.2.2.2.2.2.2.2.1, (scv_pres _).2.2.2.2.2.2.2.2.1]
  · rw [(com_pres _ _ _ _).2.2.2.2.2.2.2.2.2.1, (scv_pres _).2.2.2.2.2.2.2.2.2.1]
  · rw [(com_pres _ _ _ _).2.2.2.2.2.2.2.2.2.2.1, (scv_pres _).2.2.2.2.2.2.2.2.2.2.1]
  · rw [(com_pres _ _ _ _).2.2.2.2.2.2.2.2.2.2.2.1, (scv_pres _).2.2.2.2.2.2.2.2.2.2.2.1]

theorem fit_scalerP (O : Ops) (eid : String) (kfold : ℕ) (x : Mat) (y : Vec)
    (junk : ℕ → ℕ → ℕ → ℚ) :
    (CrossValidation.fit O eid kfold x y junk).scalerP = ScalerParams.matRef x := by
  simp only [CrossValidation.fit]
  exact com_scalerP O x y _

theorem fit_est (O : Ops) (eid : String) (kfold : ℕ) (x : Mat) (y : Vec)
    (junk : ℕ → ℕ → ℕ → ℚ) :
    (CrossValidation.fit O eid kfold x y junk).est
      = (O.learnM x x, O.learnV y y, (CrossValidation.fit O eid kfold x y junk).opt + 1) := by
  simp only [CrossValidation.fit]
  rw [com_est, (com_pres _ _ _ _).2.2.2.2.2.2.2.2.2.2.2.2.1]

theorem fit_nmc (O : Ops) (eid : String) (kfold : ℕ) (x : Mat) (y : Vec)
    (junk : ℕ → ℕ → ℕ → ℚ) :
    (CrossValidation.fit O eid kfold x y junk).nmc
      = nmcOf (CrossValidation.fit O eid kfold x y junk) := by
  simp only [CrossValidation.fit]
  rw [(com_pres _ _ _ _).2.2.2.2.2.2.2.2.2.2.2.2.2.1, scv_nmc]
  refine (nmcOf_congr _ _ ?_ ?_ ?_ ?_ ?_).symm
  · rw [(com_pres _ _ _ _).1, (scv_pres _).1]
  · rw [(com_pres _ _ _ _).2.2.2.2.2.2.1, (scv_pres _).2.2.2.2.2.2.1]
  · rw [(com_pres _ _ _ _).2.2.2.2.2.1, (scv_pres _).2.2.2.2.2.1]
  · rw [(com_pres _ _ _ _).2.2.2.2.2.2.2.2.1, (scv_pres _).2.2.2.2.2.2.2.2.1]
  · rw [(com_pres _ _ _ _).2.2.2.2.1, (scv_pres _).2.2.2.2.1]

theorem fit_opt (O : Ops) (eid : String) (kfold : ℕ) (x : Mat) (y : Vec)
    (junk : ℕ → ℕ → ℕ → ℚ) :
    (CrossValidation.fit O eid kfold x y junk).opt
      = argminN ((CrossValidation.fit O eid kfold x y junk).nmc) := by
  rw [fit_nmc]
  simp only [CrossValidation.fit]
  rw [(com_pres _ _ _ _).2.2.2.2.2.2.2.2.2.2.2.2.1, scv_opt]
  refine congrArg argminN (nmcOf_congr _ _ ?_ ?_ ?_ ?_ ?_).symm
  · rw [(com_pres _ _ _ _).1, (scv_pres _).1]
  · rw [(com_pres _ _ _ _).2.2.2.2.2.2.1, (scv_pres _).2.2.2.2.2.2.1]
  · rw [(com_pres _ _ _ _).2.2.2.2.2.1, (scv_pres _).2.2.2.2.2.1]
  · rw [(com_pres _ _ _ _).2.2.2.2.2.2.2.2.1, (scv_pres _).2.2.2.2.2.2.2.2.1]
  · rw [(com_pres _ _ _ _).2.2.2.2.1, (scv_pres _).2.2.2.2.1]

theorem fit_q2 (O : Ops) (eid : String) (kfold : ℕ) (x : Mat) (y : Vec)
    (junk : ℕ → ℕ → ℕ → ℚ) :
    (CrossValidation.fit O eid kfold x y junk).q2
      = (List.range (CrossValidation.fit O eid kfold x y junk).npc0).map (fun c =>
          1 - ((List.range (CrossValidation.fit O eid kfold x y junk).n).map
              (fun i => (CrossValidation.fit O eid kfold x y junk).pressyV i c)).sum
            / (CrossValidation.fit O eid kfold x y junk).ssy) := by
  simp only [CrossValidation.fit]
  rw [(com_pres _ _ _ _).2.2.2.2.2.2.2.2.2.2.2.2.2.2.1, scv_q2]
  refine (q2form_congr _ _ ?_ ?_ ?_ ?_ ?_).symm
  · rw [(com_pres _ _ _ _).1, (scv_pres _).1]
  · rw [(com_pres _ _ _ _).2.2.2.2.2.2.1, (scv_pres _).2.2.2.2.2.2.1]
  · rw [(com_pres _ _ _ _).2.2.2.2.2.2.2.2.2.1, (scv_pres _).2.2.2.2.2.2.2.2.2.1]
  · rw [(com_pres _ _ _ _).2.2.2.2.1, (scv_pres _).2.2.2.2.1]
  · rw [(com_pres _ _ _ _).2.2.2.2.2.2.2.1, (scv_pres _).2.2.2.2.2.2.2.1]

/-- Claim C1: after `fit(X, y)`, each out-of-fold prediction is classified
as `1` iff its value in `ypred` is strictly positive (else `0`), per
component column; `mis_classifications[c]` counts the samples whose
predicted class differs from `y` at column `c`; the optimal component index
is the argmin of the misclassification counts with ties resolved to the
lowest index (the value at `opt` is minimal and every column before `opt`
is strictly worse), `optimal_component_num = opt + 1`, and
`optimal_component_num` always lies in `[1, npc0]`. -/
theorem claim_C1 (O : Ops) (eid : String) (kfold : ℕ) (x : Mat) (y : Vec)
    (junk : ℕ → ℕ → ℕ → ℚ)
    (h : 1 ≤ (CrossValidation.fit O eid kfold x y junk).npc0) :
    (CrossValidation.fit O eid kfold x y junk).mis_classifications.length
        = (CrossValidation.fit O eid kfold x y junk).npc0
    ∧ (∀ c, c < (CrossValidation.fit O eid kfold x y junk).npc0 →
        (CrossValidation.fit O eid kfold x y junk).mis_classifications.getD c 0
          = ((List.range (CrossValidation.fit O eid kfold x y junk).n).filter
              (fun i => decide
                ((if 0 < (CrossValidation.fit O eid kfold x y junk).ypredV i c then (1 : ℚ)
                    else 0)
                  - (CrossValidation.fit O eid kfold x y junk).y.getD i 0 ≠ 0))).length)
    ∧ (CrossValidation.fit O eid kfold x y junk).opt
        < (CrossValidation.fit O eid kfold x y junk).npc0
    ∧ (∀ c, c < (CrossValidation.fit O eid kfold x y junk).npc0 →
        (CrossValidation.fit O eid kfold x y junk).nmc.getD
            ((CrossValidation.fit O eid kfold x y junk).opt) 0
          ≤ (CrossValidation.fit O eid kfold x y junk).nmc.getD c 0)
    ∧ (∀ c, c < (CrossValidation.fit O eid kfold x y junk).opt →
        (CrossValidation.fit O eid kfold x y junk).nmc.getD
            ((CrossValidation.fit O eid kfold x y junk).opt) 0
          < (CrossValidation.fit O eid kfold x y junk).nmc.getD c 0)
    ∧ (CrossValidation.fit O eid kfold x y junk).optimal_component_num
        = (CrossValidation.fit O eid kfold x y junk).opt + 1
    ∧ 1 ≤ (CrossValidation.fit O eid kfold x y junk).optimal_component_num
    ∧ (CrossValidation.fit O eid kfold x y junk).optimal_component_num
        ≤ (CrossValidation.fit O eid kfold x y junk).npc0 := by
  have hnmf := fit_nmc O eid kfold x y junk
  have hopt := fit_opt O eid kfold x y junk
  have hlen : (nmcOf (CrossValidation.fit O eid kfold x y junk)).length
      = (CrossValidation.fit O eid kfold x y junk).npc0 := by
    simp [nmcOf]
  have hne : (CrossValidation.fit O eid kfold x y junk).nmc ≠ [] := by
    rw [hnmf]
    intro hq
    rw [hq] at hlen
    simp only [List.length_nil] at hlen
    omega
  have hne2 : nmcOf (CrossValidation.fit O eid kfold x y junk) ≠ [] := by
    rw [← hnmf]
    exact hne
  have hlt : (CrossValidation.fit O eid kfold x y junk).opt
      < (CrossValidation.fit O eid kfold x y junk).npc0 := by
    rw [hopt, hnmf]
    have h2 := argminN_lt _ hne
    rw [hnmf, hlen] at h2
    exact h2
  refine ⟨?_, ?_, hlt, ?_, ?_, rfl, ?_, ?_⟩
  · show (CrossValidation.fit O eid kfold x y junk).nmc.length = _
    rw [hnmf, hlen]
  · intro c hc
    show (CrossValidation.fit O eid kfold x y junk).nmc.getD c 0 = _
    rw [hnmf]
    unfold nmcOf
    rw [getD_map_range _ _ _ _ hc]
    simp only [predClassV]
  · intro c hc
    rw [hopt, hnmf, argminN_getD _ hne2]
    refine listMinN_le _ c ?_
    rw [hlen]
    exact hc
  · intro c hc
    rw [hopt, hnmf] at hc
    rw [hopt, hnmf, argminN_getD _ hne2]
    exact argminN_first _ c hc
  · show 1 ≤ (CrossValidation.fit O eid kfold x y junk).opt + 1
    omega
  · show (CrossValidation.fit O eid kfold x y junk).opt + 1
      ≤ (CrossValidation.fit O eid kfold x y junk).npc0
    omega

theorem claim_C1_witness :
    1 ≤ (CrossValidation.fit constOps "pls" 2 cx cy cjunk).npc0
    ∧ 1 ≤ (CrossValidation.fit constOps "pls" 2 cx cy cjunk).optimal_component_num
    ∧ (CrossValidation.fit constOps "pls" 2 cx cy cjunk).optimal_component_num
        ≤ (CrossValidation.fit constOps "pls" 2 cx cy cjunk).npc0 :=
  ⟨by decide,
   (claim_C1 constOps "pls" 2 cx cy cjunk (by decide)).2.2.2.2.2.2.1,
   (claim_C1 constOps "pls" 2 cx cy cjunk (by decide)).2.2.2.2.2.2.2⟩

theorem readLog_single (e : ℕ × ℚ) (d : ℚ) : readLog [e] d = e.2 := rfl

set_option maxHeartbeats 3000000 in
theorem q2_neg_example :
    CVState.q2prop (CrossValidation.fit constOps "pls" 2 cx cy cjunk) < 0 := by
  norm_num [CVState.q2prop, CrossValidation.fit, fitInit, foldStep, innerLoop, innerStep,
    _summary_cv, _create_optimal_model, _summary_fit, _split_test, _split_train,
    Scaler.fitM, Scaler.fitV, Scaler.scaleM, Scaler.scaleV, rowsAt, valsAt, asgn,
    updAppend, updAppendV, sumSqV, sumSqM, sqVec, subVec, colOf, entry, dotV, matMul,
    matVecMul, vecMatMul, divVS, takeCols, transposeM, addM, subM, nmcOf, predClassV,
    argminN, listMinN, CVState.ypredV, CVState.pressyV, readLog_single, constOps, cx, cy,
    cjunk, List.range_succ, List.foldl_cons, List.foldl_nil, List.filter_cons,
    List.filter_nil, List.indexOf_cons_self, List.getD_cons_zero, List.getD_cons_succ,
    show ("pls" : String) ≠ "opls" from by decide]

/-- Claim C2: after `fit(X, y)`, for every component column `c < npc0` the
internal Q2 curve satisfies `Q2[c] = 1 − sum(pressy[:, c]) / total_ssy`,
where `total_ssy` is the sum over folds of the squared scaled test
responses; the `q2` property returns the entry of this curve at the optimal
component index; and the value may be negative. -/
theorem claim_C2 (O : Ops) (eid : String) (kfold : ℕ) (x : Mat) (y : Vec)
    (junk : ℕ → ℕ → ℕ → ℚ) :
    (CrossValidation.fit O eid kfold x y junk).q2.length
        = (CrossValidation.fit O eid kfold x y junk).npc0
    ∧ (∀ c, c < (CrossValidation.fit O eid kfold x y junk).npc0 →
        (CrossValidation.fit O eid kfold x y junk).q2.getD c 0
          = 1 - ((List.range (CrossValidation.fit O eid kfold x y junk).n).map
                (fun i => (CrossValidation.fit O eid kfold x y junk).pressyV i c)).sum
              / (CrossValidation.fit O eid kfold x y junk).ssy)
    ∧ (CrossValidation.fit O eid kfold x y junk).ssy
        = ((List.range kfold).map (fun f => sumSqV (yteScaledF O y x.length kfold f))).sum
    ∧ CVState.q2prop (CrossValidation.fit O eid kfold x y junk)
        = (CrossValidation.fit O eid kfold x y junk).q2.getD
            ((CrossValidation.fit O eid kfold x y junk).opt) 0
    ∧ ∃ (O' : Ops) (x' : Mat) (y' : Vec) (kfold' : ℕ) (junk' : ℕ → ℕ → ℕ → ℚ),
        CVState.q2prop (CrossValidation.fit O' "pls" kfold' x' y' junk') < 0 := by
  refine ⟨?_, ?_, fit_ssy O eid kfold x y junk, rfl,
    ⟨constOps, cx, cy, 2, cjunk, q2_neg_example⟩⟩
  · rw [fit_q2]
    simp
  · intro c hc
    rw [fit_q2]
    rw [getD_map_range _ _ _ _ hc]

theorem split_test_not_mem {n k f f' i : ℕ} (hmem : i ∈ _split_test n k f) (hne : f' ≠ f) :
    i ∉ _split_test n k f' := by
  intro hmem'
  have hb : 0 < n / k := by
    rw [mem_split_test] at hmem
    by_contra hz
    have h0 : n / k = 0 := Nat.eq_zero_of_not_pos hz
    rw [h0] at hmem
    have h1 : i < 0 * (f + 1) := lt_of_lt_of_le hmem.2 (Nat.min_le_left _ _)
    simp at h1
  exact hne (split_test_disjoint hb hmem' hmem)

theorem mem_shift_tail {kfold f f' : ℕ}
    (hf' : f' ∈ (List.range (kfold - f - 1)).map (fun t => f + 1 + t)) : f' ≠ f := by
  obtain ⟨t, _, ht⟩ := List.mem_map.1 hf'
  omega

theorem fit_row_single (O : Ops) (eid : String) (kfold : ℕ) (x : Mat) (y : Vec)
    (junk : ℕ → ℕ → ℕ → ℚ) (f i : ℕ) (hf : f < kfold)
    (hmem : i ∈ _split_test x.length kfold f) (c : ℕ) :
    (CrossValidation.fit O eid kfold x y junk).ypredLog i c
        = (foldStep O eid x y
            ((List.range f).foldl (foldStep O eid x y) (fitInit eid kfold x y junk))
            f).ypredLog i c
    ∧ (CrossValidation.fit O eid kfold x y junk).pressyLog i c
        = (foldStep O eid x y
            ((List.range f).foldl (foldStep O eid x y) (fitInit eid kfold x y junk))
            f).pressyLog i c
    ∧ (CrossValidation.fit O eid kfold x y junk).torthoLog i c
        = (foldStep O eid x y
            ((List.range f).foldl (foldStep O eid x y) (fitInit eid kfold x y junk))
            f).torthoLog i c
    ∧ (CrossValidation.fit O eid kfold x y junk).tpredLog i c
        = (foldStep O eid x y
            ((List.range f).foldl (foldStep O eid x y) (fitInit eid kfold x y junk))
            f).tpredLog i c := by
  have hlogs := fit_logs O eid kfold x y junk
  have hsplit := foldl_range_split (foldStep O eid x y) kfold f hf (fitInit eid kfold x y junk)
  have hmid_n : (foldStep O eid x y
      ((List.range f).foldl (foldStep O eid x y) (fitInit eid kfold x y junk)) f).n
      = x.length := by
    rw [foldStep_n, outer_n]
    rfl
  have hmid_k : (foldStep O eid x y
      ((List.range f).foldl (foldStep O eid x y) (fitInit eid kfold x y junk)) f).kfold
      = kfold := by
    rw [foldStep_kfold, outer_kfold]
    rfl
  have htail := outer_rows_unchanged O eid x y i
    ((List.range (kfold - f - 1)).map (fun t => f + 1 + t))
    (foldStep O eid x y
      ((List.range f).foldl (foldStep O eid x y) (fitInit eid kfold x y junk)) f)
    (fun f' hf' => by
      rw [hmid_n, hmid_k]
      exact split_test_not_mem hmem (mem_shift_tail hf')) c
  refine ⟨?_, ?_, ?_, ?_⟩
  · rw [hlogs.1, hsplit]
    exact htail.1
  · rw [hlogs.2.1, hsplit]
    exact htail.2.1
  · rw [hlogs.2.2.1, hsplit]
    exact htail.2.2.1
  · rw [hlogs.2.2.2, hsplit]
    exact htail.2.2.2

theorem fit_row_pre_empty (O : Ops) (eid : String) (kfold : ℕ) (x : Mat) (y : Vec)
    (junk : ℕ → ℕ → ℕ → ℚ) (f i : ℕ)
    (hmem : i ∈ _split_test x.length kfold f) (c : ℕ) :
    ((List.range f).foldl (foldStep O eid x y) (fitInit eid kfold x y junk)).ypredLog i c = []
    ∧ ((List.range f).foldl (foldStep O eid x y)
        (fitInit eid kfold x y junk)).pressyLog i c = []
    ∧ ((List.range f).foldl (foldStep O eid x y)
        (fitInit eid kfold x y junk)).torthoLog i c = []
    ∧ ((List.range f).foldl (foldStep O eid x y)
        (fitInit eid kfold x y junk)).tpredLog i c = [] := by
  have h := outer_rows_unchanged O eid x y i (List.range f) (fitInit eid kfold x y junk)
    (fun f' hf' => by
      have hne : f' ≠ f := by
        have := List.mem_range.1 hf'
        omega
      exact split_test_not_mem hmem hne) c
  exact ⟨h.1, h.2.1, h.2.2.1, h.2.2.2⟩

theorem fit_pre_basic (O : Ops) (eid : String) (kfold : ℕ) (x : Mat) (y : Vec)
    (junk : ℕ → ℕ → ℕ → ℚ) (f : ℕ) :
    ((List.range f).foldl (foldStep O eid x y) (fitInit eid kfold x y junk)).n = x.length
    ∧ ((List.range f).foldl (foldStep O eid x y)
        (fitInit eid kfold x y junk)).p = (x.headD []).length
    ∧ ((List.range f).foldl (foldStep O eid x y)
        (fitInit eid kfold x y junk)).kfold = kfold := by
  refine ⟨?_, ?_, ?_⟩
  · rw [outer_n]
    rfl
  · rw [outer_p]
    rfl
  · rw [outer_kfold]
    rfl

theorem fit_npc0_le_npcF (O : Ops) (eid : String) (kfold : ℕ) (x : Mat) (y : Vec)
    (junk : ℕ → ℕ → ℕ → ℚ) (f : ℕ) (hf : f < kfold) :
    (CrossValidation.fit O eid kfold x y junk).npc0
      ≤ npcF x.length ((x.headD []).length) kfold f := by
  rw [fit_npc0]
  exact foldl_min_le (npcF x.length ((x.headD []).length) kfold) (List.range kfold) _ f
    (List.mem_range.2 hf)

/-- Claim C5: during `fit(X, y)` with `kfold` dividing `n`, every sample row
of `ypred` and `pressy` is written exactly once per component column (the
final write log of each cell is a single entry), and the writing fold is
exactly the fold in which that sample is held out in the test set; no row
receives more than one prediction per component column. -/
theorem claim_C5 (O : Ops) (eid : String) (kfold : ℕ) (x : Mat) (y : Vec)
    (junk : ℕ → ℕ → ℕ → ℚ) (hk : 1 ≤ kfold) (hdvd : kfold ∣ x.length) :
    ∀ i, i < (CrossValidation.fit O eid kfold x y junk).n →
    ∀ c, c < (CrossValidation.fit O eid kfold x y junk).npc0 →
      (∃ f v, f < kfold ∧ i ∈ _split_test x.length kfold f
        ∧ (CrossValidation.fit O eid kfold x y junk).ypredLog i c = [(f, v)])
      ∧ (∃ f v, f < kfold ∧ i ∈ _split_test x.length kfold f
        ∧ (CrossValidation.fit O eid kfold x y junk).pressyLog i c = [(f, v)]) := by
  intro i hi c hc
  rw [(fit_basic O eid kfold x y junk).1] at hi
  obtain ⟨hfk, hmem⟩ := split_test_cover hk hdvd hi
  have hrow := fit_row_single O eid kfold x y junk _ i hfk hmem c
  have hpre := fit_row_pre_empty O eid kfold x y junk _ i hmem c
  have hbas := fit_pre_basic O eid kfold x y junk (i / (x.length / kfold))
  have hmem' : i ∈ _split_test
      ((List.range (i / (x.length / kfold))).foldl (foldStep O eid x y)
        (fitInit eid kfold x y junk)).n
      ((List.range (i / (x.length / kfold))).foldl (foldStep O eid x y)
        (fitInit eid kfold x y junk)).kfold (i / (x.length / kfold)) := by
    rw [hbas.1, hbas.2.2]
    exact hmem
  have hc' : c < npcF
      ((List.range (i / (x.length / kfold))).foldl (foldStep O eid x y)
        (fitInit eid kfold x y junk)).n
      ((List.range (i / (x.length / kfold))).foldl (foldStep O eid x y)
        (fitInit eid kfold x y junk)).p
      ((List.range (i / (x.length / kfold))).foldl (foldStep O eid x y)
        (fitInit eid kfold x y junk)).kfold (i / (x.length / kfold)) := by
    rw [hbas.1, hbas.2.1, hbas.2.2]
    exact lt_of_lt_of_le hc (fit_npc0_le_npcF O eid kfold x y junk _ hfk)
  constructor
  · obtain ⟨v, hv⟩ := foldStep_ypred_write O eid x y _ _ i c hmem' hc'
    refine ⟨i / (x.length / kfold), v, hfk, hmem, ?_⟩
    rw [hrow.1, hv, hpre.1, List.nil_append]
  · obtain ⟨v, hv⟩ := foldStep_pressy_write O eid x y _ _ i c hmem' hc'
    refine ⟨i / (x.length / kfold), v, hfk, hmem, ?_⟩
    rw [hrow.2.1, hv, hpre.2.1, List.nil_append]

theorem claim_C5_witness :
    ∃ f v, f < 2 ∧ 0 ∈ _split_test 2 2 f
      ∧ (CrossValidation.fit constOps "pls" 2 cx cy cjunk).ypredLog 0 0 = [(f, v)] :=
  (claim_C5 constOps "pls" 2 cx cy cjunk (by decide) (by decide) 0 (by decide) 0
    (by decide)).1

/-- Claim C10: during `fit` with estimator `"opls"`, whenever a fold's test
set contains exactly one sample, the orthogonal score for that sample is
written into column `0` of the `tortho` accumulator for every component
count `k` from `1` to `npc` (column `0` collects `npc` writes, all tagged
with that fold), instead of column `k − 1`; consequently columns `1`
through `npc0 − 1` of `tortho` are never written for such a sample, while
`tpred`, `ypred` and `pressy` are still written at column `k − 1` (one
write per column).  The scaler is assumed to preserve the row count of the
matrix it scales, which is the `Scaler` contract. -/
theorem claim_C10 (O : Ops) (kfold : ℕ) (x : Mat) (y : Vec)
    (junk : ℕ → ℕ → ℕ → ℚ) (f i : ℕ)
    (hO : ∀ r m, (O.learnM r m).length = m.length)
    (hf : f < kfold)
    (hsing : _split_test x.length kfold f = [i]) :
    ((CrossValidation.fit O "opls" kfold x y junk).torthoLog i 0).length
        = npcF x.length ((x.headD []).length) kfold f
    ∧ (∀ e ∈ (CrossValidation.fit O "opls" kfold x y junk).torthoLog i 0, e.1 = f)
    ∧ (∀ c, 1 ≤ c → (CrossValidation.fit O "opls" kfold x y junk).torthoLog i c = [])
    ∧ (∀ c, c < npcF x.length ((x.headD []).length) kfold f →
        (∃ v, (CrossValidation.fit O "opls" kfold x y junk).tpredLog i c = [(f, v)])
        ∧ (∃ v, (CrossValidation.fit O "opls" kfold x y junk).ypredLog i c = [(f, v)])
        ∧ (∃ v, (CrossValidation.fit O "opls" kfold x y junk).pressyLog i c = [(f, v)])) := by
  have hmem : i ∈ _split_test x.length kfold f := by
    rw [hsing]
    exact List.mem_singleton_self i
  have hbas := fit_pre_basic O "opls" kfold x y junk f
  have hsing' : _split_test
      ((List.range f).foldl (foldStep O "opls" x y) (fitInit "opls" kfold x y junk)).n
      ((List.range f).foldl (foldStep O "opls" x y)
        (fitInit "opls" kfold x y junk)).kfold f = [i] := by
    rw [hbas.1, hbas.2.2]
    exact hsing
  have hmem' : i ∈ _split_test
      ((List.range f).foldl (foldStep O "opls" x y) (fitInit "opls" kfold x y junk)).n
      ((List.range f).foldl (foldStep O "opls" x y)
        (fitInit "opls" kfold x y junk)).kfold f := by
    rw [hbas.1, hbas.2.2]
    exact hmem
  have hto := foldStep_tortho_single O "opls" x y
    ((List.range f).foldl (foldStep O "opls" x y) (fitInit "opls" kfold x y junk))
    f i rfl hO hsing'
  refine ⟨?_, ?_, ?_, ?_⟩
  · rw [(fit_row_single O "opls" kfold x y junk f i hf hmem 0).2.2.1]
    obtain ⟨ext, he, hl, _⟩ := hto.1
    rw [he, (fit_row_pre_empty O "opls" kfold x y junk f i hmem 0).2.2.1,
      List.nil_append, hl, hbas.1, hbas.2.1, hbas.2.2]
  · intro e hee
    rw [(fit_row_single O "opls" kfold x y junk f i hf hmem 0).2.2.1] at hee
    obtain ⟨ext, he, _, hfext⟩ := hto.1
    rw [he, (fit_row_pre_empty O "opls" kfold x y junk f i hmem 0).2.2.1,
      List.nil_append] at hee
    exact hfext e hee
  · intro c hc
    rw [(fit_row_single O "opls" kfold x y junk f i hf hmem c).2.2.1, hto.2 c hc,
      (fit_row_pre_empty O "opls" kfold x y junk f i hmem c).2.2.1]
  · intro c hc
    have hc' : c < npcF
        ((List.range f).foldl (foldStep O "opls" x y) (fitInit "opls" kfold x y junk)).n
        ((List.range f).foldl (foldStep O "opls" x y) (fitInit "opls" kfold x y junk)).p
        ((List.range f).foldl (foldStep O "opls" x y)
          (fitInit "opls" kfold x y junk)).kfold f := by
      rw [hbas.1, hbas.2.1, hbas.2.2]
      exact hc
    refine ⟨?_, ?_, ?_⟩
    · obtain ⟨v, hv⟩ := foldStep_tpred_write O "opls" x y _ f i c rfl hmem' hc'
      refine ⟨v, ?_⟩
      rw [(fit_row_single O "opls" kfold x y junk f i hf hmem c).2.2.2, hv,
        (fit_row_pre_empty O "opls" kfold x y junk f i hmem c).2.2.2, List.nil_append]
    · obtain ⟨v, hv⟩ := foldStep_ypred_write O "opls" x y _ f i c hmem' hc'
      refine ⟨v, ?_⟩
      rw [(fit_row_single O "opls" kfold x y junk f i hf hmem c).1, hv,
        (fit_row_pre_empty O "opls" kfold x y junk f i hmem c).1, List.nil_append]
    · obtain ⟨v, hv⟩ := foldStep_pressy_write O "opls" x y _ f i c hmem' hc'
      refine ⟨v, ?_⟩
      rw [(fit_row_single O "opls" kfold x y junk f i hf hmem c).2.1, hv,
        (fit_row_pre_empty O "opls" kfold x y junk f i hmem c).2.1, List.nil_append]

theorem claim_C10_witness :
    (∀ r m, (constOps.learnM r m).length = m.length)
    ∧ ((CrossValidation.fit constOps "opls" 2 cx2 cy cjunk).torthoLog 0 0).length
        = npcF cx2.length ((cx2.headD []).length) 2 0
    ∧ (∀ c, 1 ≤ c →
        (CrossValidation.fit constOps "opls" 2 cx2 cy cjunk).torthoLog 0 c = []) :=
  ⟨fun _ _ => rfl,
   (claim_C10 constOps 2 cx2 cy cjunk 0 0 (fun _ _ => rfl) (by decide) (by decide)).1,
   (claim_C10 constOps 2 cx2 cy cjunk 0 0 (fun _ _ => rfl) (by decide) (by decide)).2.2.1⟩

/-- Claim C6 counterexample: constructing with the unrecognized estimator
identifier `"svm"` raises no configuration error — `__init__` returns
normally, with the `estimator` attribute left unassigned (`none`), so the
claim that construction fails eagerly is false at this input. -/
theorem claim_C6_counterexample :
    CrossValidation.mk_init "svm" 10 "pareto"
      = Except.ok ⟨10, none, "svm", "pareto"⟩ := rfl

/-- Claim C6 (amended): constructing a `CrossValidation` object with an
estimator identifier that is neither `"pls"` nor `"opls"` does *not* raise
at construction time: `__init__` has no `else` branch, returns normally and
leaves the `estimator` attribute unassigned; the failure is deferred to
attribute resolution on a later call such as `fit`, which fails with
`AttributeError`. -/
theorem claim_C6 (s : String) (k : ℕ) (sc : String) (h1 : s ≠ "pls") (h2 : s ≠ "opls") :
    CrossValidation.mk_init s k sc = Except.ok ⟨k, none, s, sc⟩
    ∧ (CVConfig.estimatorAccess ⟨k, none, s, sc⟩).isOk = false := by
  constructor
  · unfold CrossValidation.mk_init
    rw [if_neg h1, if_neg h2]
  · rfl

theorem claim_C6_witness :
    CrossValidation.mk_init "svm" 10 "pareto" = Except.ok ⟨10, none, "svm", "pareto"⟩
    ∧ (CVConfig.estimatorAccess ⟨10, none, "svm", "pareto"⟩).isOk = false :=
  claim_C6 "svm" 10 "pareto" (by decide) (by decide)

/-- Claim C7: on every `CrossValidation` state whose estimator identifier
is not `"opls"`, each OPLS-only property accessor — `orthogonal_score`,
`predictive_score`, `R2Xcorr`, `R2XYO`, `correlation`, `covariance` and
`loadings_cv` — raises the usage `ValueError` from its guard before
computing anything; when the identifier is `"opls"`, none of these
accessors raises. -/
theorem claim_C7 (st : CVState) :
    (st.estimator_id ≠ "opls" →
      st.orthogonal_score = Except.error "This is only applicable for OPLS/OPLS-DA."
      ∧ st.predictive_score = Except.error "This is only applicable for OPLS/OPLS-DA."
      ∧ st.R2Xcorr = Except.error "This is only applicable for OPLS/OPLS-DA."
      ∧ st.R2XYO = Except.error "This is only applicable for OPLS/OPLS-DA."
      ∧ st.correlation = Except.error "This is only applicable for OPLS/OPLS-DA."
      ∧ st.covariance = Except.error "This is only applicable for OPLS/OPLS-DA."
      ∧ st.loadings_cv = Except.error "This is only applicable for OPLS/OPLS-DA.")
    ∧ (st.estimator_id = "opls" →
      st.orthogonal_score.isOk = true
      ∧ st.predictive_score.isOk = true
      ∧ st.R2Xcorr.isOk = true
      ∧ st.R2XYO.isOk = true
      ∧ st.correlation.isOk = true
      ∧ st.covariance.isOk = true
      ∧ st.loadings_cv.isOk = true) := by
  constructor
  · intro h
    exact ⟨by unfold CVState.orthogonal_score; rw [if_pos h],
      by unfold CVState.predictive_score; rw [if_pos h],
      by unfold CVState.R2Xcorr; rw [if_pos h],
      by unfold CVState.R2XYO; rw [if_pos h],
      by unfold CVState.correlation; rw [if_pos h],
      by unfold CVState.covariance; rw [if_pos h],
      by unfold CVState.loadings_cv; rw [if_pos h]⟩
  · intro h
    have h2 : ¬ st.estimator_id ≠ "opls" := fun hh => hh h
    exact ⟨by unfold CVState.orthogonal_score; rw [if_neg h2]; rfl,
      by unfold CVState.predictive_score; rw [if_neg h2]; rfl,
      by unfold CVState.R2Xcorr; rw [if_neg h2]; rfl,
      by unfold CVState.R2XYO; rw [if_neg h2]; rfl,
      by unfold CVState.correlation; rw [if_neg h2]; rfl,
      by unfold CVState.covariance; rw [if_neg h2]; rfl,
      by unfold CVState.loadings_cv; rw [if_neg h2]; rfl⟩

theorem claim_C7_witness :
    stPls.R2Xcorr = Except.error "This is only applicable for OPLS/OPLS-DA."
    ∧ stOpls.R2Xcorr.isOk = true :=
  ⟨((claim_C7 stPls).1 (by decide)).2.2.1, ((claim_C7 stOpls).2 (by decide)).2.2.1⟩

/-- Claim C8: `predict(X)` on a fitted model first scales `X` with the
stored scaler parameters — which, after `fit`, are exactly those learned
from the whole dataset in the final refit, not any per-fold transient
scaler state —, then, iff the estimator is OPLS, applies the stored
orthogonal correction at `opt_component + 1` components, and finally
predicts via the estimator state fitted on the whole scaled dataset at
`opt_component + 1` components. -/
theorem claim_C8 (O : Ops) (eid : String) (kfold : ℕ) (x : Mat) (y : Vec)
    (junk : ℕ → ℕ → ℕ → ℚ) (xnew : Mat) :
    CVState.predict O (CrossValidation.fit O eid kfold x y junk) xnew
      = (if eid = "opls" then
          (O.opredict
            (O.learnM x x, O.learnV y y,
              (CrossValidation.fit O eid kfold x y junk).opt + 1)
            ((O.correct
              (O.learnM x x, O.learnV y y,
                (CrossValidation.fit O eid kfold x y junk).opt + 1)
              (O.learnM x xnew)
              ((CrossValidation.fit O eid kfold x y junk).opt + 1)).1)
            ((CrossValidation.fit O eid kfold x y junk).opt + 1)).1
        else
          O.ppredict
            (O.learnM x x, O.learnV y y,
              (CrossValidation.fit O eid kfold x y junk).opt + 1)
            (O.learnM x xnew)
            ((CrossValidation.fit O eid kfold x y junk).opt + 1)) := by
  simp only [CVState.predict]
  rw [fit_scalerP, fit_est, (fit_basic O eid kfold x y junk).2.2.2.1]
  rfl

/-- Claim C9: after `fit` with estimator `"pls"`, reading the `scores`
property returns exactly the estimator's `scores_x` (on its final fitted
state); after `fit` with estimator `"opls"`, reading `scores` returns
exactly the value of the `predictive_score` property, which is the
cross-validated predictive score column of `Tpred` at the optimal
component index. -/
theorem claim_C9 (O : Ops) (kfold : ℕ) (x : Mat) (y : Vec) (junk : ℕ → ℕ → ℕ → ℚ) :
    CVState.scores O (CrossValidation.fit O "pls" kfold x y junk)
        = Except.ok (Sum.inr (O.scores_x (CrossValidation.fit O "pls" kfold x y junk).est))
    ∧ CVState.scores O (CrossValidation.fit O "opls" kfold x y junk)
        = (CVState.predictive_score
            (CrossValidation.fit O "opls" kfold x y junk)).map Sum.inl
    ∧ CVState.predictive_score (CrossValidation.fit O "opls" kfold x y junk)
        = Except.ok ((List.range (CrossValidation.fit O "opls" kfold x y junk).n).map
            (fun i => (CrossValidation.fit O "opls" kfold x y junk).tpredV i
              (CrossValidation.fit O "opls" kfold x y junk).opt)) := by
  refine ⟨?_, ?_, ?_⟩
  · unfold CVState.scores
    rw [(fit_basic O "pls" kfold x y junk).2.2.2.1,
      if_neg (by decide : ¬("pls" : String) = "opls")]
  · unfold CVState.scores
    rw [(fit_basic O "opls" kfold x y junk).2.2.2.1, if_pos rfl]
  · unfold CVState.predictive_score
    rw [(fit_basic O "opls" kfold x y junk).2.2.2.1,
      if_neg (not_not_intro (rfl : ("opls" : String) = "opls"))]

theorem claim_C2_witness :
    0 < (CrossValidation.fit constOps "pls" 2 cx cy cjunk).npc0
    ∧ (CrossValidation.fit constOps "pls" 2 cx cy cjunk).q2.getD 0 0
        = 1 - ((List.range (CrossValidation.fit constOps "pls" 2 cx cy cjunk).n).map
              (fun i => (CrossValidation.fit constOps "pls" 2 cx cy cjunk).pressyV i 0)).sum
            / (CrossValidation.fit constOps "pls" 2 cx cy cjunk).ssy :=
  ⟨by decide, (claim_C2 constOps "pls" 2 cx cy cjunk).2.1 0 (by decide)⟩

end PyPLS
